import Mathlib

/-!
Verification of the image-to-figma pipeline.

This file gives a shallow embedding, in Lean 4, of the core of the
image-to-figma repository:

* the zod schema and validator for the `DesignNode` / `DesignSpec` tree
  (packages/shared spec.ts);
* the normalizer and repair pipeline (`normalizeNode` in the server);
* the coordinate-system resolver (`fitScore`, `detectCoordinateMode`,
  `chooseLocalPosition` in the plugin renderer);
* the renderer and instantiator (`renderNode`, `renderToFigma`,
  `imagePaintFromNode`), with the Figma host modelled as a state of created
  canvas objects plus an event trace, and the asynchronous resource loads
  (font loads and remote image fetches) modelled as oracles in an
  environment; a rejected promise is modelled by `Except.error`.

JavaScript numbers are modelled as exact rationals.  Every number that
reaches the validator in the real system comes out of JSON.parse (directly,
or via the normalizer whose coercions keep only finite values), so this
domain covers exactly the reachable inputs.  Raw JSON values are modelled by
the inductive `JVal`; an absent object key models both a missing key and an
undefined value.
-/

/-- Raw JSON-like values (the "any" that reaches the normalizer and the
zod validator). -/
inductive JVal where
  | num (q : ℚ)
  | str (s : String)
  | bool (b : Bool)
  | null
  | arr (xs : List JVal)
  | obj (fields : List (String × JVal))

/-- Looks up a key in a raw object field list (first match wins). -/
def lookupField : List (String × JVal) → String → Option JVal
  | [], _ => none
  | (k, v) :: rest, key => if k = key then some v else lookupField rest key

/-- Field lookup on a raw value: some field value for objects, none
otherwise. -/
def jGet : JVal → String → Option JVal
  | JVal.obj fields, key => lookupField fields key
  | _, _ => none

/-- JavaScript truthiness of a raw value. -/
def jsTruthy : JVal → Bool
  | JVal.num q => q != 0
  | JVal.str s => s != ""
  | JVal.bool b => b
  | JVal.null => false
  | JVal.arr _ => true
  | JVal.obj _ => true

mutual

/-- Nesting depth of a raw value, used to size the fuel of the recursive
parser and normalizer. -/
def jdepth : JVal → Nat
  | JVal.num _ => 1
  | JVal.str _ => 1
  | JVal.bool _ => 1
  | JVal.null => 1
  | JVal.arr xs => 1 + jdepthL xs
  | JVal.obj fs => 1 + jdepthF fs

/-- Depth of a list of raw values. -/
def jdepthL : List JVal → Nat
  | [] => 0
  | x :: xs => max (jdepth x) (jdepthL xs)

/-- Depth of a raw object field list. -/
def jdepthF : List (String × JVal) → Nat
  | [] => 0
  | (_, v) :: rest => max (jdepth v) (jdepthF rest)

end

/-- Boolean prefix test on character lists. -/
def strStarts : List Char → List Char → Bool
  | [], _ => true
  | _ :: _, [] => false
  | c :: cs, d :: ds => c == d && strStarts cs ds

/-- `s.startsWith pre` on the character-list model of strings. -/
def jStartsWith (s pre : String) : Bool := strStarts pre.toList s.toList

/-- JavaScript whitespace (the common subset relevant to trimming). -/
def isJsSpace (c : Char) : Bool :=
  c == ' ' || c == '\t' || c == '\n' || c == '\r' || c == '\x0c' || c == '\x0b'

/-- `s.trim()` on the character-list model of strings. -/
def jTrim (s : String) : String :=
  String.mk (((s.toList.dropWhile isJsSpace).reverse.dropWhile isJsSpace).reverse)

/-- Lowercases one ASCII letter. -/
def lowerChar (c : Char) : Char :=
  if 'A' ≤ c ∧ c ≤ 'Z' then Char.ofNat (c.toNat + 32) else c

/-- `s.toLowerCase()` on the character-list model of strings. -/
def jToLower (s : String) : String := String.mk (s.toList.map lowerChar)

/-! ## Typed data model (the output type of the validator) -/

/-- An RGBA color with channels in the unit interval (`ColorSchema`). -/
structure RGBA where
  r : ℚ
  g : ℚ
  b : ℚ
  a : Option ℚ
deriving DecidableEq, Repr

/-- Horizontal text alignment (`alignHorizontal`). -/
inductive Align where
  | LEFT | CENTER | RIGHT | JUSTIFIED
deriving DecidableEq, Repr

/-- Image scale mode (`scaleMode`). -/
inductive ScaleMode where
  | FILL | FIT | CROP | TILE
deriving DecidableEq, Repr

/-- Frame layout mode (`layoutMode`). -/
inductive LayoutMode where
  | NONE | HORIZONTAL | VERTICAL
deriving DecidableEq, Repr

/-- Frame padding (`FramePadding`). -/
structure FramePadding where
  top : Option ℚ
  right : Option ℚ
  bottom : Option ℚ
  left : Option ℚ
deriving DecidableEq, Repr

/-- The shared base fields of every node (`NodeBase`). -/
structure NodeBase where
  name : Option String
  x : ℚ
  y : ℚ
  width : ℚ
  height : ℚ
  opacity : Option ℚ
deriving DecidableEq, Repr

/-- The validated design node union (`DesignNode`), a closed sum of the five
node kinds. -/
inductive DesignNode where
  | rect (base : NodeBase) (fill stroke : Option RGBA)
      (strokeWidth cornerRadius : Option ℚ)
  | text (base : NodeBase) (text : String)
      (fontFamily fontStyle : Option String) (fontSize : Option ℚ)
      (fill : Option RGBA) (alignHorizontal : Option Align)
  | frame (base : NodeBase) (layoutMode : LayoutMode)
      (padding : Option FramePadding) (itemSpacing : Option ℚ)
      (fill stroke : Option RGBA) (strokeWidth cornerRadius : Option ℚ)
      (children : List DesignNode)
  | ellipse (base : NodeBase) (fill stroke : Option RGBA)
      (strokeWidth : Option ℚ)
  | image (base : NodeBase) (imageUrl imageDataUrl : Option String)
      (scaleMode : Option ScaleMode) (cornerRadius : Option ℚ)
      (stroke : Option RGBA) (strokeWidth : Option ℚ)

/-- The base fields of a node, uniformly over the five variants. -/
def DesignNode.base : DesignNode → NodeBase
  | .rect b _ _ _ _ => b
  | .text b _ _ _ _ _ _ => b
  | .frame b _ _ _ _ _ _ _ _ => b
  | .ellipse b _ _ _ => b
  | .image b _ _ _ _ _ _ => b

/-- Canvas metadata of a design spec. -/
structure Canvas where
  name : String
  width : ℚ
  height : ℚ
deriving DecidableEq, Repr

/-- A validated design spec (`DesignSpec`). -/
structure DesignSpec where
  canvas : Canvas
  nodes : List DesignNode

/-! ## The zod validator (spec.ts), as a parser from raw values

Each `z.object` is modelled by a function over the raw field list.  A zod
schema either fails or produces a fully typed value with defaults applied;
order of field checks does not matter for this Option-valued semantics, so
each parser checks the `type` literal first.  `z.union` tries the five
member schemas in declaration order. -/

/-- Decodes a raw value as a number (`z.number()`). -/
def asNumber : JVal → Option ℚ
  | JVal.num q => some q
  | _ => none

/-- Decodes a raw value as a string (`z.string()`). -/
def asString : JVal → Option String
  | JVal.str s => some s
  | _ => none

/-- `z.number().min(lo)`. -/
def numMin (lo : ℚ) (v : JVal) : Option ℚ := do
  let q ← asNumber v
  if lo ≤ q then some q else none

/-- `z.number().positive()`. -/
def numPos (v : JVal) : Option ℚ := do
  let q ← asNumber v
  if 0 < q then some q else none

/-- `z.number().min(0).max(1)`. -/
def numUnit (v : JVal) : Option ℚ := do
  let q ← asNumber v
  if 0 ≤ q ∧ q ≤ 1 then some q else none

/-- `z.string().min(1)`. -/
def strMin1 (v : JVal) : Option String := do
  let s ← asString v
  if 1 ≤ s.length then some s else none

/-- `z.string().startsWith "data:image/"`. -/
def strDataUrl (v : JVal) : Option String := do
  let s ← asString v
  if jStartsWith s "data:image/" then some s else none

/-- `z.literal(lit)` for a string literal. -/
def litStr (lit : String) (v : JVal) : Option Unit := do
  let s ← asString v
  if s = lit then some () else none

/-- `z.enum(["LEFT","CENTER","RIGHT","JUSTIFIED"])`. -/
def parseAlign (v : JVal) : Option Align := do
  let s ← asString v
  if s = "LEFT" then some Align.LEFT
  else if s = "CENTER" then some Align.CENTER
  else if s = "RIGHT" then some Align.RIGHT
  else if s = "JUSTIFIED" then some Align.JUSTIFIED
  else none

/-- `z.enum(["FILL","FIT","CROP","TILE"])`. -/
def parseScaleMode (v : JVal) : Option ScaleMode := do
  let s ← asString v
  if s = "FILL" then some ScaleMode.FILL
  else if s = "FIT" then some ScaleMode.FIT
  else if s = "CROP" then some ScaleMode.CROP
  else if s = "TILE" then some ScaleMode.TILE
  else none

/-- `z.enum(["NONE","HORIZONTAL","VERTICAL"])`. -/
def parseLayoutMode (v : JVal) : Option LayoutMode := do
  let s ← asString v
  if s = "NONE" then some LayoutMode.NONE
  else if s = "HORIZONTAL" then some LayoutMode.HORIZONTAL
  else if s = "VERTICAL" then some LayoutMode.VERTICAL
  else none

/-- A required object field: fails when the key is absent or when the field
schema rejects the value. -/
def reqField (fields : List (String × JVal)) (key : String)
    (dec : JVal → Option α) : Option α :=
  (lookupField fields key).bind dec

/-- An optional object field (`.optional()`): an absent key parses to
`none`; a present value must satisfy the field schema.  (A present `null`
is rejected, as zod only lets `undefined` through an optional.) -/
def optField (fields : List (String × JVal)) (key : String)
    (dec : JVal → Option α) : Option (Option α) :=
  match lookupField fields key with
  | none => some none
  | some v => (dec v).map some

/-- A field with a default (`.default(d)`): an absent key parses to the
default. -/
def defField (fields : List (String × JVal)) (key : String)
    (dec : JVal → Option α) (d : α) : Option α :=
  match lookupField fields key with
  | none => some d
  | some v => dec v

/-- `z.array(...).default([])`, raw part: extracts the element list, with an
absent key defaulting to the empty array. -/
def arrField (fields : List (String × JVal)) (key : String) :
    Option (List JVal) :=
  match lookupField fields key with
  | none => some []
  | some (JVal.arr xs) => some xs
  | some _ => none

/-- `ColorSchema`. -/
def parseColor : JVal → Option RGBA
  | JVal.obj cf => do
    let r ← reqField cf "r" numUnit
    let g ← reqField cf "g" numUnit
    let b ← reqField cf "b" numUnit
    let a ← optField cf "a" numUnit
    some ⟨r, g, b, a⟩
  | _ => none

/-- The padding object schema inside `FrameNodeSchema`. -/
def parsePadding : JVal → Option FramePadding
  | JVal.obj pf => do
    let top ← optField pf "top" (numMin 0)
    let right ← optField pf "right" (numMin 0)
    let bottom ← optField pf "bottom" (numMin 0)
    let left ← optField pf "left" (numMin 0)
    some ⟨top, right, bottom, left⟩
  | _ => none

/-- `NodeBaseSchema`. -/
def parseBase (fields : List (String × JVal)) : Option NodeBase := do
  let name ← optField fields "name" asString
  let x ← reqField fields "x" asNumber
  let y ← reqField fields "y" asNumber
  let width ← reqField fields "width" numPos
  let height ← reqField fields "height" numPos
  let opacity ← optField fields "opacity" numUnit
  some ⟨name, x, y, width, height, opacity⟩

/-- `RectNodeSchema`. -/
def parseRect (fields : List (String × JVal)) : Option DesignNode := do
  let _ ← reqField fields "type" (litStr "rect")
  let b ← parseBase fields
  let fill ← optField fields "fill" parseColor
  let stroke ← optField fields "stroke" parseColor
  let sw ← optField fields "strokeWidth" (numMin 0)
  let cr ← optField fields "cornerRadius" (numMin 0)
  some (DesignNode.rect b fill stroke sw cr)

/-- `TextNodeSchema`. -/
def parseText (fields : List (String × JVal)) : Option DesignNode := do
  let _ ← reqField fields "type" (litStr "text")
  let b ← parseBase fields
  let t ← reqField fields "text" asString
  let fam ← optField fields "fontFamily" asString
  let sty ← optField fields "fontStyle" asString
  let fsz ← optField fields "fontSize" numPos
  let fill ← optField fields "fill" parseColor
  let al ← optField fields "alignHorizontal" parseAlign
  some (DesignNode.text b t fam sty fsz fill al)

/-- `EllipseNodeSchema`. -/
def parseEllipse (fields : List (String × JVal)) : Option DesignNode := do
  let _ ← reqField fields "type" (litStr "ellipse")
  let b ← parseBase fields
  let fill ← optField fields "fill" parseColor
  let stroke ← optField fields "stroke" parseColor
  let sw ← optField fields "strokeWidth" (numMin 0)
  some (DesignNode.ellipse b fill stroke sw)

/-- JavaScript truthiness of an optional string, as used by the `.refine`
on `ImageNodeSchema` (`Boolean(v.imageUrl || v.imageDataUrl)`). -/
def strTruthy : Option String → Bool
  | some s => s != ""
  | none => false

/-- `ImageNodeSchema`, including its `.refine` requiring at least one image
source. -/
def parseImage (fields : List (String × JVal)) : Option DesignNode := do
  let _ ← reqField fields "type" (litStr "image")
  let b ← parseBase fields
  let iu ← optField fields "imageUrl" strMin1
  let idu ← optField fields "imageDataUrl" strDataUrl
  let sm ← optField fields "scaleMode" parseScaleMode
  let cr ← optField fields "cornerRadius" (numMin 0)
  let stroke ← optField fields "stroke" parseColor
  let sw ← optField fields "strokeWidth" (numMin 0)
  if strTruthy iu || strTruthy idu then
    some (DesignNode.image b iu idu sm cr stroke sw)
  else none

/-- `FrameNodeSchema`, parameterized by the parser for the recursive
`children` array (`z.array(z.lazy(() => DesignNodeSchema)).default([])`). -/
def parseFrame (pc : List JVal → Option (List DesignNode))
    (fields : List (String × JVal)) : Option DesignNode := do
  let _ ← reqField fields "type" (litStr "frame")
  let b ← parseBase fields
  let lm ← defField fields "layoutMode" parseLayoutMode LayoutMode.NONE
  let pad ← optField fields "padding" parsePadding
  let isp ← optField fields "itemSpacing" (numMin 0)
  let fill ← optField fields "fill" parseColor
  let stroke ← optField fields "stroke" parseColor
  let sw ← optField fields "strokeWidth" (numMin 0)
  let cr ← optField fields "cornerRadius" (numMin 0)
  let xs ← arrField fields "children"
  let cs ← pc xs
  some (DesignNode.frame b lm pad isp fill stroke sw cr cs)

/-- Applies a node parser across an array (`z.array(...)`). -/
def parseListAux (p : JVal → Option DesignNode) :
    List JVal → Option (List DesignNode)
  | [] => some []
  | x :: xs => do
    let c ← p x
    let cs ← parseListAux p xs
    some (c :: cs)

/-- First-success union (`z.union` returns the first member schema that
accepts the value). -/
def jalt (a : Option α) (b : Unit → Option α) : Option α :=
  match a with
  | some v => some v
  | none => b ()

/-- `DesignNodeSchema` — the recursive union of the five node schemas —
with explicit fuel bounding the recursion depth into frame children. -/
def parseNodeF : Nat → JVal → Option DesignNode
  | 0, _ => none
  | Nat.succ n, v =>
    match v with
    | JVal.obj fields =>
      jalt (parseRect fields) fun _ =>
      jalt (parseText fields) fun _ =>
      jalt (parseFrame (parseListAux (parseNodeF n)) fields) fun _ =>
      jalt (parseEllipse fields) fun _ =>
      parseImage fields
    | _ => none

/-- `DesignNodeSchema.parse`, i.e. membership of a raw value in the node
union.  The fuel `jdepth v + 1` strictly dominates the recursion depth,
since each recursion step descends through at least an object and an array
layer of the raw value. -/
def parseDesignNode (v : JVal) : Option DesignNode :=
  parseNodeF (jdepth v + 1) v

/-- The canvas object schema inside `DesignSpecSchema` (name defaults to
"Generated from Image"). -/
def parseCanvas : JVal → Option Canvas
  | JVal.obj cf => do
    let name ← defField cf "name" asString "Generated from Image"
    let width ← reqField cf "width" numPos
    let height ← reqField cf "height" numPos
    some ⟨name, width, height⟩
  | _ => none

/-- `DesignSpecSchema` with explicit fuel for the node parsers. -/
def parseSpecAux (fuel : Nat) : JVal → Option DesignSpec
  | JVal.obj fields => do
    let canvas ← reqField fields "canvas" parseCanvas
    let xs ← arrField fields "nodes"
    let nodes ← parseListAux (parseNodeF fuel) xs
    some ⟨canvas, nodes⟩
  | _ => none

/-- `DesignSpecSchema.parse`. -/
def parseSpec (v : JVal) : Option DesignSpec :=
  parseSpecAux (jdepth v + 1) v

/-! ## Encoding validated values back to raw values

`encodeNode` writes out exactly the plain object that `DesignNodeSchema.parse`
returns in JavaScript: the keys the schema knows about, with optional keys
omitted when absent and defaulted keys always present.  Re-validating a
validated value means parsing this encoding. -/

/-- An optional object entry: present keys only. -/
def optEntry (key : String) : Option JVal → List (String × JVal)
  | none => []
  | some v => [(key, v)]

/-- Encodes a color back to a raw object. -/
def encodeColor (c : RGBA) : JVal :=
  JVal.obj ([("r", JVal.num c.r), ("g", JVal.num c.g), ("b", JVal.num c.b)]
    ++ optEntry "a" (c.a.map JVal.num))

/-- Encodes a padding object. -/
def encodePadding (p : FramePadding) : JVal :=
  JVal.obj (optEntry "top" (p.top.map JVal.num)
    ++ optEntry "right" (p.right.map JVal.num)
    ++ optEntry "bottom" (p.bottom.map JVal.num)
    ++ optEntry "left" (p.left.map JVal.num))

/-- Encodes the shared base fields. -/
def encodeBase (b : NodeBase) : List (String × JVal) :=
  optEntry "name" (b.name.map JVal.str)
    ++ [("x", JVal.num b.x), ("y", JVal.num b.y),
        ("width", JVal.num b.width), ("height", JVal.num b.height)]
    ++ optEntry "opacity" (b.opacity.map JVal.num)

/-- The canonical string of an alignment value. -/
def alignStr : Align → String
  | Align.LEFT => "LEFT"
  | Align.CENTER => "CENTER"
  | Align.RIGHT => "RIGHT"
  | Align.JUSTIFIED => "JUSTIFIED"

/-- The canonical string of a scale mode. -/
def scaleModeStr : ScaleMode → String
  | ScaleMode.FILL => "FILL"
  | ScaleMode.FIT => "FIT"
  | ScaleMode.CROP => "CROP"
  | ScaleMode.TILE => "TILE"

/-- The canonical string of a layout mode. -/
def layoutModeStr : LayoutMode → String
  | LayoutMode.NONE => "NONE"
  | LayoutMode.HORIZONTAL => "HORIZONTAL"
  | LayoutMode.VERTICAL => "VERTICAL"

mutual

/-- Encodes a validated node back to the raw object that the validator
produced for it. -/
def encodeNode : DesignNode → JVal
  | DesignNode.rect b fill stroke sw cr =>
    JVal.obj (("type", JVal.str "rect") :: encodeBase b
      ++ optEntry "fill" (fill.map encodeColor)
      ++ optEntry "stroke" (stroke.map encodeColor)
      ++ optEntry "strokeWidth" (sw.map JVal.num)
      ++ optEntry "cornerRadius" (cr.map JVal.num))
  | DesignNode.text b t fam sty fsz fill al =>
    JVal.obj (("type", JVal.str "text") :: encodeBase b
      ++ [("text", JVal.str t)]
      ++ optEntry "fontFamily" (fam.map JVal.str)
      ++ optEntry "fontStyle" (sty.map JVal.str)
      ++ optEntry "fontSize" (fsz.map JVal.num)
      ++ optEntry "fill" (fill.map encodeColor)
      ++ optEntry "alignHorizontal" (al.map (fun a => JVal.str (alignStr a))))
  | DesignNode.frame b lm pad isp fill stroke sw cr cs =>
    JVal.obj (("type", JVal.str "frame") :: encodeBase b
      ++ [("layoutMode", JVal.str (layoutModeStr lm))]
      ++ optEntry "padding" (pad.map encodePadding)
      ++ optEntry "itemSpacing" (isp.map JVal.num)
      ++ optEntry "fill" (fill.map encodeColor)
      ++ optEntry "stroke" (stroke.map encodeColor)
      ++ optEntry "strokeWidth" (sw.map JVal.num)
      ++ optEntry "cornerRadius" (cr.map JVal.num)
      ++ [("children", JVal.arr (encodeList cs))])
  | DesignNode.ellipse b fill stroke sw =>
    JVal.obj (("type", JVal.str "ellipse") :: encodeBase b
      ++ optEntry "fill" (fill.map encodeColor)
      ++ optEntry "stroke" (stroke.map encodeColor)
      ++ optEntry "strokeWidth" (sw.map JVal.num))
  | DesignNode.image b iu idu sm cr stroke sw =>
    JVal.obj (("type", JVal.str "image") :: encodeBase b
      ++ optEntry "imageUrl" (iu.map JVal.str)
      ++ optEntry "imageDataUrl" (idu.map JVal.str)
      ++ optEntry "scaleMode" (sm.map (fun m => JVal.str (scaleModeStr m)))
      ++ optEntry "cornerRadius" (cr.map JVal.num)
      ++ optEntry "stroke" (stroke.map encodeColor)
      ++ optEntry "strokeWidth" (sw.map JVal.num))

/-- Encodes a list of validated nodes. -/
def encodeList : List DesignNode → List JVal
  | [] => []
  | c :: cs => encodeNode c :: encodeList cs

end

/-- Encodes a validated spec back to the raw object the validator produced
(canvas name and nodes list always present). -/
def encodeSpec (sp : DesignSpec) : JVal :=
  JVal.obj [("canvas", JVal.obj [("name", JVal.str sp.canvas.name),
      ("width", JVal.num sp.canvas.width),
      ("height", JVal.num sp.canvas.height)]),
    ("nodes", JVal.arr (encodeList sp.nodes))]

/-! ## Validity predicates

`nodeOkB` is the exact invariant the validator establishes: a validated node
satisfies it, and any typed node satisfying it round-trips through
encode/parse. -/

/-- Validity of an optional value under a Boolean condition. -/
def optOk (p : α → Bool) : Option α → Bool
  | none => true
  | some a => p a

/-- All color channels and the optional alpha lie in the unit interval. -/
def colorOkB (c : RGBA) : Bool :=
  decide (0 ≤ c.r ∧ c.r ≤ 1) && decide (0 ≤ c.g ∧ c.g ≤ 1)
    && decide (0 ≤ c.b ∧ c.b ≤ 1) && optOk (fun q => decide (0 ≤ q ∧ q ≤ 1)) c.a

/-- All present padding fields are non-negative. -/
def paddingOkB (p : FramePadding) : Bool :=
  optOk (fun q => decide (0 ≤ q)) p.top && optOk (fun q => decide (0 ≤ q)) p.right
    && optOk (fun q => decide (0 ≤ q)) p.bottom && optOk (fun q => decide (0 ≤ q)) p.left

/-- Base-field invariant: positive width and height, opacity in the unit
interval when present. -/
def baseOkB (b : NodeBase) : Bool :=
  decide (0 < b.width) && decide (0 < b.height)
    && optOk (fun q => decide (0 ≤ q ∧ q ≤ 1)) b.opacity

mutual

/-- The full validator invariant on a typed node. -/
def nodeOkB : DesignNode → Bool
  | DesignNode.rect b fill stroke sw cr =>
    baseOkB b && optOk colorOkB fill && optOk colorOkB stroke
      && optOk (fun q => decide (0 ≤ q)) sw && optOk (fun q => decide (0 ≤ q)) cr
  | DesignNode.text b _ _ _ fsz fill _ =>
    baseOkB b && optOk (fun q => decide (0 < q)) fsz && optOk colorOkB fill
  | DesignNode.frame b _ pad isp fill stroke sw cr cs =>
    baseOkB b && optOk paddingOkB pad && optOk (fun q => decide (0 ≤ q)) isp
      && optOk colorOkB fill && optOk colorOkB stroke
      && optOk (fun q => decide (0 ≤ q)) sw && optOk (fun q => decide (0 ≤ q)) cr
      && listOkB cs
  | DesignNode.ellipse b fill stroke sw =>
    baseOkB b && optOk colorOkB fill && optOk colorOkB stroke
      && optOk (fun q => decide (0 ≤ q)) sw
  | DesignNode.image b iu idu _ cr stroke sw =>
    baseOkB b && optOk (fun s => decide (1 ≤ s.length)) iu
      && optOk (fun s => jStartsWith s "data:image/") idu
      && optOk (fun q => decide (0 ≤ q)) cr && optOk colorOkB stroke
      && optOk (fun q => decide (0 ≤ q)) sw
      && (strTruthy iu || strTruthy idu)

/-- The validator invariant on a list of typed nodes. -/
def listOkB : List DesignNode → Bool
  | [] => true
  | c :: cs => nodeOkB c && listOkB cs

end

/-- The validator invariant on a spec: positive canvas and valid nodes. -/
def specOkB (sp : DesignSpec) : Bool :=
  decide (0 < sp.canvas.width) && decide (0 < sp.canvas.height) && listOkB sp.nodes

mutual

/-- Tree depth of a typed node, dominating the parser fuel its encoding
needs. -/
def depthN : DesignNode → Nat
  | DesignNode.frame _ _ _ _ _ _ _ _ cs => 1 + depthL cs
  | _ => 1

/-- Tree depth of a typed node list. -/
def depthL : List DesignNode → Nat
  | [] => 0
  | c :: cs => max (depthN c) (depthL cs)

end

mutual

/-- The claim-level invariant on a validated node: positive width/height,
every color channel and opacity in the unit interval, recursively in frame
children.  (Finiteness of the geometry holds by construction of the number
domain.) -/
def claimInvB : DesignNode → Bool
  | DesignNode.rect b fill stroke _ _ =>
    baseOkB b && optOk colorOkB fill && optOk colorOkB stroke
  | DesignNode.text b _ _ _ _ fill _ => baseOkB b && optOk colorOkB fill
  | DesignNode.frame b _ _ _ fill stroke _ _ cs =>
    baseOkB b && optOk colorOkB fill && optOk colorOkB stroke && claimInvL cs
  | DesignNode.ellipse b fill stroke _ =>
    baseOkB b && optOk colorOkB fill && optOk colorOkB stroke
  | DesignNode.image b _ _ _ _ stroke _ => baseOkB b && optOk colorOkB stroke

/-- The claim-level invariant on a node list. -/
def claimInvL : List DesignNode → Bool
  | [] => true
  | c :: cs => claimInvB c && claimInvL cs

end

/-! ## The normalizer / repair pipeline (server index.ts)

`toNumber` models the coercion `Number(value)` guarded by `Number.isFinite`;
the string branch is modelled for plain decimal literals (optionally signed,
with fraction and exponent).  Exotic accepted forms (hex literals,
"Infinity") are out of the nonfinite-or-unused corner of that primitive and
are mapped to `none`; no theorem below depends on the string branch. -/

/-- Splits a character list at the first character satisfying the predicate,
dropping it; `none` when no character matches. -/
def splitWhen (p : Char → Bool) : List Char → Option (List Char × List Char)
  | [] => none
  | c :: cs =>
    if p c then some ([], cs)
    else (splitWhen p cs).map (fun q => (c :: q.1, q.2))

/-- Reads a non-empty all-digit character list as a natural number. -/
def digitsToNat : List Char → Nat → Option Nat
  | [], acc => some acc
  | c :: cs, acc =>
    if c.isDigit then digitsToNat cs (acc * 10 + (c.toNat - 48)) else none

/-- The mantissa of a decimal literal: digits with at most one dot, at least
one digit present. -/
def mantissaToRat (cs : List Char) : Option ℚ :=
  match splitWhen (fun c => c == '.') cs with
  | none =>
    if cs = [] then none
    else (digitsToNat cs 0).map (fun n => (n : ℚ))
  | some (i, f) =>
    if i = [] ∧ f = [] then none
    else do
      let iv ← if i = [] then some 0 else digitsToNat i 0
      let fv ← if f = [] then some 0 else digitsToNat f 0
      some ((iv : ℚ) + (fv : ℚ) / (10 ^ f.length))

/-- Strips a leading sign, returning whether the value is negated. -/
def stripSign : List Char → Bool × List Char
  | '-' :: r => (true, r)
  | '+' :: r => (false, r)
  | r => (false, r)

/-- JavaScript `Number(s)` on decimal literals, `none` where the result is
not a finite decimal value. -/
def jsStringToNumber (s : String) : Option ℚ :=
  let cs := (jTrim s).toList
  match cs with
  | [] => none
  | _ =>
    let sb := stripSign cs
    let body := sb.2
    let parts : List Char × Option (List Char) :=
      match splitWhen (fun c => c == 'e' || c == 'E') body with
      | none => (body, none)
      | some (m, e) => (m, some e)
    do
      let mq ← mantissaToRat parts.1
      let q : ℚ ← match parts.2 with
        | none => some mq
        | some ecs =>
          let eb := stripSign ecs
          if eb.2 = [] then none
          else do
            let ev ← digitsToNat eb.2 0
            some (if eb.1 then mq / (10 : ℚ) ^ ev else mq * (10 : ℚ) ^ ev)
      some (if sb.1 then -q else q)

/-- `toNumber` from the server: finite numbers pass through, non-blank
numeric strings are coerced, everything else is rejected. -/
def toNumber : JVal → Option ℚ
  | JVal.num q => some q
  | JVal.str s => if jTrim s = "" then none else jsStringToNumber s
  | _ => none

/-- `toNumber` applied through an optional field access. -/
def toNumberO (o : Option JVal) : Option ℚ := o.bind toNumber

/-- Field lookup through an optional raw value (optional chaining). -/
def jGetO (o : Option JVal) (key : String) : Option JVal :=
  o.bind (fun v => jGet v key)

/-- An object entry present only when the raw field is a string. -/
def strEntry (key : String) (o : Option JVal) : List (String × JVal) :=
  match o with
  | some (JVal.str s) => [(key, JVal.str s)]
  | _ => []

/-- An object entry present only when the raw field coerces to a number. -/
def numEntry (key : String) (o : Option JVal) : List (String × JVal) :=
  match toNumberO o with
  | some q => [(key, JVal.num q)]
  | none => []

/-- An object entry copying a raw field when it is truthy. -/
def truthyEntry (key : String) (o : Option JVal) : List (String × JVal) :=
  match o with
  | some v => if jsTruthy v then [(key, v)] else []
  | none => []

/-- The numeric-weight to named-style chain of the normalizer text branch
(700 and up is Bold, 600 and up Semibold, 500 and up Medium, else
Regular). -/
def weightToStyle (w : ℚ) : String :=
  if 700 ≤ w then "Bold"
  else if 600 ≤ w then "Semibold"
  else if 500 ≤ w then "Medium"
  else "Regular"

/-- The `fontStyle` entry of the normalized text node: an explicit style
string wins, else a coercible `fontWeight` is mapped through the named-style
chain. -/
def fontStyleEntry (fields : List (String × JVal)) : List (String × JVal) :=
  match lookupField fields "fontStyle" with
  | some (JVal.str s) => [("fontStyle", JVal.str s)]
  | _ =>
    match toNumberO (lookupField fields "fontWeight") with
    | some w => [("fontStyle", JVal.str (weightToStyle w))]
    | none => []

/-- The `alignHorizontal` entry of the normalized text node: an explicit
string wins, else a generic `textAlign` keyword is mapped (case
insensitively) onto the canonical value; unrecognized keywords are
dropped. -/
def alignEntry (fields : List (String × JVal)) : List (String × JVal) :=
  match lookupField fields "alignHorizontal" with
  | some (JVal.str s) => [("alignHorizontal", JVal.str s)]
  | _ =>
    match lookupField fields "textAlign" with
    | some (JVal.str s) =>
      let l := jToLower s
      if l = "left" then [("alignHorizontal", JVal.str "LEFT")]
      else if l = "center" then [("alignHorizontal", JVal.str "CENTER")]
      else if l = "right" then [("alignHorizontal", JVal.str "RIGHT")]
      else if l = "justified" then [("alignHorizontal", JVal.str "JUSTIFIED")]
      else []
    | _ => []

/-- The `fill` entry of the normalized text node: a truthy `fill` wins, else
a truthy `color` is aliased onto `fill`. -/
def fillOrColorEntry (fields : List (String × JVal)) : List (String × JVal) :=
  match truthyEntry "fill" (lookupField fields "fill") with
  | [] =>
    match lookupField fields "color" with
    | some cv => if jsTruthy cv then [("fill", cv)] else []
    | none => []
  | e => e

/-- The padding object of the normalized frame node, built when the raw
padding is truthy and of object type (arrays count as objects and yield no
entries). -/
def paddingEntry (fields : List (String × JVal)) : List (String × JVal) :=
  match lookupField fields "padding" with
  | some (JVal.obj pf) =>
    [("padding", JVal.obj (numEntry "top" (lookupField pf "top")
      ++ numEntry "right" (lookupField pf "right")
      ++ numEntry "bottom" (lookupField pf "bottom")
      ++ numEntry "left" (lookupField pf "left")))]
  | some (JVal.arr _) => [("padding", JVal.obj [])]
  | _ => []

/-- The placeholder rectangle substituted for an image node that lacks both
source fields: identical bounds, a derived name, the original corner radius
defaulting to 8, and a fixed light fill. -/
def imagePlaceholder (fields : List (String × JVal)) (x y w h : ℚ) : JVal :=
  JVal.obj [("type", JVal.str "rect"),
    ("name", JVal.str (match lookupField fields "name" with
      | some (JVal.str s) => s ++ " Placeholder"
      | _ => "Image Placeholder")),
    ("x", JVal.num x), ("y", JVal.num y),
    ("width", JVal.num w), ("height", JVal.num h),
    ("cornerRadius", JVal.num ((toNumberO (lookupField fields "cornerRadius")).getD 8)),
    ("fill", JVal.obj [("r", JVal.num 0.9), ("g", JVal.num 0.92),
      ("b", JVal.num 0.95), ("a", JVal.num 1)])]

/-- Keeps the non-null results of a node transform across a child array
(`.map(normalizeNode).filter(Boolean)`). -/
def normListAux (p : JVal → Option JVal) : List JVal → List JVal
  | [] => []
  | x :: xs =>
    match p x with
    | some y => y :: normListAux p xs
    | none => normListAux p xs

/-- `normalizeNode` from the server, with explicit fuel for the frame-child
recursion: drops nodes whose tag is not one of the five kinds or whose
geometry cannot be coerced, aliases recognized alternate keys, reclassifies
sourceless image nodes as placeholder rectangles, and recurses into frame
children. -/
def normalizeNodeF : Nat → JVal → Option JVal
  | 0, _ => none
  | Nat.succ n, v =>
    match v with
    | JVal.obj fields =>
      match lookupField fields "type" with
      | some (JVal.str ty) =>
        if ty = "rect" ∨ ty = "text" ∨ ty = "frame" ∨ ty = "ellipse" ∨ ty = "image" then
          match toNumberO (lookupField fields "x"),
              toNumberO (lookupField fields "y"),
              toNumberO (lookupField fields "width"),
              toNumberO (lookupField fields "height") with
          | some x, some y, some w, some h =>
            let base := [("type", JVal.str ty), ("x", JVal.num x), ("y", JVal.num y),
                ("width", JVal.num w), ("height", JVal.num h)]
              ++ strEntry "name" (lookupField fields "name")
              ++ numEntry "opacity" (lookupField fields "opacity")
            if ty = "text" then
              some (JVal.obj (base
                ++ [("text", JVal.str (match lookupField fields "text" with
                  | some (JVal.str s) => s
                  | _ => ""))]
                ++ strEntry "fontFamily" (lookupField fields "fontFamily")
                ++ fontStyleEntry fields
                ++ numEntry "fontSize" (lookupField fields "fontSize")
                ++ fillOrColorEntry fields
                ++ alignEntry fields))
            else if ty = "rect" then
              some (JVal.obj (base
                ++ truthyEntry "fill" (lookupField fields "fill")
                ++ truthyEntry "stroke" (lookupField fields "stroke")
                ++ numEntry "strokeWidth" (lookupField fields "strokeWidth")
                ++ numEntry "cornerRadius" (lookupField fields "cornerRadius")))
            else if ty = "ellipse" then
              some (JVal.obj (base
                ++ truthyEntry "fill" (lookupField fields "fill")
                ++ truthyEntry "stroke" (lookupField fields "stroke")
                ++ numEntry "strokeWidth" (lookupField fields "strokeWidth")))
            else if ty = "image" then
              match lookupField fields "imageUrl", lookupField fields "imageDataUrl" with
              | some (JVal.str _), _ =>
                some (JVal.obj (base
                  ++ strEntry "imageUrl" (lookupField fields "imageUrl")
                  ++ strEntry "imageDataUrl" (lookupField fields "imageDataUrl")
                  ++ strEntry "scaleMode" (lookupField fields "scaleMode")
                  ++ numEntry "cornerRadius" (lookupField fields "cornerRadius")
                  ++ truthyEntry "stroke" (lookupField fields "stroke")
                  ++ numEntry "strokeWidth" (lookupField fields "strokeWidth")))
              | _, some (JVal.str _) =>
                some (JVal.obj (base
                  ++ strEntry "imageUrl" (lookupField fields "imageUrl")
                  ++ strEntry "imageDataUrl" (lookupField fields "imageDataUrl")
                  ++ strEntry "scaleMode" (lookupField fields "scaleMode")
                  ++ numEntry "cornerRadius" (lookupField fields "cornerRadius")
                  ++ truthyEntry "stroke" (lookupField fields "stroke")
                  ++ numEntry "strokeWidth" (lookupField fields "strokeWidth")))
              | _, _ => some (imagePlaceholder fields x y w h)
            else
              some (JVal.obj (base
                ++ strEntry "layoutMode" (lookupField fields "layoutMode")
                ++ paddingEntry fields
                ++ numEntry "itemSpacing" (lookupField fields "itemSpacing")
                ++ truthyEntry "fill" (lookupField fields "fill")
                ++ truthyEntry "stroke" (lookupField fields "stroke")
                ++ numEntry "strokeWidth" (lookupField fields "strokeWidth")
                ++ numEntry "cornerRadius" (lookupField fields "cornerRadius")
                ++ (match lookupField fields "children" with
                  | some (JVal.arr xs) =>
                    [("children", JVal.arr (normListAux (normalizeNodeF n) xs))]
                  | _ => [])))
          | _, _, _, _ => none
        else none
      | _ => none
    | _ => none

/-- `normalizeNode` from the server. -/
def normalizeNode (v : JVal) : Option JVal :=
  normalizeNodeF (jdepth v + 1) v

/-- `normalizeSpec` from the server: rebuilds the canvas with fallbacks to
the request dimensions and normalizes the node list. -/
def normalizeSpec (input : JVal) (width height : ℚ) : JVal :=
  let canvas := jGet input "canvas"
  let canvasName := match jGetO canvas "name" with
    | some (JVal.str s) => s
    | _ => "Generated from Image"
  let canvasWidth := (toNumberO (jGetO canvas "width")).getD width
  let canvasHeight := (toNumberO (jGetO canvas "height")).getD height
  let nodes := match jGet input "nodes" with
    | some (JVal.arr xs) => normListAux (fun x => normalizeNodeF (jdepth x + 1) x) xs
    | _ => []
  JVal.obj [("canvas", JVal.obj [("name", JVal.str canvasName),
      ("width", JVal.num canvasWidth), ("height", JVal.num canvasHeight)]),
    ("nodes", JVal.arr nodes)]

/-! ## The coordinate-system resolver (render.ts) -/

/-- `fitScore`: one point for each of the four containment checks against
the parent box, with a tolerance of one unit. -/
def fitScore (x y width height parentWidth parentHeight : ℚ) : Nat :=
  let tol : ℚ := 1
  (if -tol ≤ x then 1 else 0) + (if -tol ≤ y then 1 else 0)
    + (if x + width ≤ parentWidth + tol then 1 else 0)
    + (if y + height ≤ parentHeight + tol then 1 else 0)

/-- The two coordinate interpretations a frame child can carry. -/
inductive CoordMode where
  | relative
  | absolute
deriving DecidableEq, Repr

/-- `chooseLocalPosition`: picks the strictly better-scoring interpretation,
falls back to the preferred mode on a tie, and carries the source's final
parent-origin fallback branch verbatim. -/
def chooseLocalPosition (node : DesignNode)
    (parentAbsX parentAbsY parentWidth parentHeight : ℚ)
    (preferredCoordinateMode : CoordMode) : ℚ × ℚ :=
  let relPt : ℚ × ℚ := (node.base.x, node.base.y)
  let absPt : ℚ × ℚ := (node.base.x - parentAbsX, node.base.y - parentAbsY)
  let relScore := fitScore relPt.1 relPt.2 node.base.width node.base.height
    parentWidth parentHeight
  let absScore := fitScore absPt.1 absPt.2 node.base.width node.base.height
    parentWidth parentHeight
  if relScore < absScore then absPt
  else if absScore < relScore then relPt
  else if preferredCoordinateMode = CoordMode.absolute then absPt
  else if preferredCoordinateMode = CoordMode.relative then relPt
  else if parentAbsX ≠ 0 ∨ parentAbsY ≠ 0 then absPt
  else relPt

/-- `chooseLocalPosition` without its parent-origin fallback branch: on a
tie the preferred mode decides. -/
def chooseLocalPositionDecided (node : DesignNode)
    (parentAbsX parentAbsY parentWidth parentHeight : ℚ)
    (preferredCoordinateMode : CoordMode) : ℚ × ℚ :=
  let relPt : ℚ × ℚ := (node.base.x, node.base.y)
  let absPt : ℚ × ℚ := (node.base.x - parentAbsX, node.base.y - parentAbsY)
  let relScore := fitScore relPt.1 relPt.2 node.base.width node.base.height
    parentWidth parentHeight
  let absScore := fitScore absPt.1 absPt.2 node.base.width node.base.height
    parentWidth parentHeight
  if relScore < absScore then absPt
  else if absScore < relScore then relPt
  else if preferredCoordinateMode = CoordMode.absolute then absPt
  else relPt

/-- The two per-frame aggregate fit sums of `detectCoordinateMode`
(relative sum first, absolute sum second). -/
def detectScores (nodes : List DesignNode)
    (parentAbsX parentAbsY parentWidth parentHeight : ℚ) : Nat × Nat :=
  nodes.foldl (fun acc node =>
    (acc.1 + fitScore node.base.x node.base.y node.base.width node.base.height
        parentWidth parentHeight,
      acc.2 + fitScore (node.base.x - parentAbsX) (node.base.y - parentAbsY)
        node.base.width node.base.height parentWidth parentHeight)) (0, 0)

/-- `detectCoordinateMode`: absolute only when the aggregate absolute score
strictly exceeds the aggregate relative score. -/
def detectCoordinateMode (nodes : List DesignNode)
    (parentAbsX parentAbsY parentWidth parentHeight : ℚ) : CoordMode :=
  let s := detectScores nodes parentAbsX parentAbsY parentWidth parentHeight
  if s.1 < s.2 then CoordMode.absolute else CoordMode.relative

/-- `inferPillRadius`: an explicit radius passes through; otherwise a filled
box at most 28 units tall and at least 1.6 times as wide as tall gets the
floor of half its height. -/
def inferPillRadius (width height : ℚ) (hasFill : Bool)
    (explicitCornerRadius : Option ℚ) : Option ℚ :=
  match explicitCornerRadius with
  | some cr => some cr
  | none =>
    if !hasFill then none
    else if height ≤ 28 ∧ width ≥ height * 1.6 then
      some ((⌊height / 2⌋ : ℤ) : ℚ)
    else none

/-! ## The renderer / instantiator (render.ts)

The Figma host is modelled by a state holding the created canvas objects in
creation order, the parent-child attachments in attachment order, and an
event trace.  The environment carries the outcome oracles of the
asynchronous host operations: a remote fetch either yields bytes, completes
with a non-OK status, or rejects (modelled as `Except.error`, since the
source has no handler around `await fetch`); `atob` either decodes or
throws; a font load either resolves or rejects. -/

/-- A fill or stroke paint. -/
inductive Paint where
  | solidP (r g b : ℚ) (opacity : Option ℚ)
  | imageP (hash : List Nat) (scaleMode : ScaleMode)
deriving DecidableEq, Repr

/-- `solid`: a solid paint from a color, with the alpha as paint opacity. -/
def solid (c : RGBA) : Paint := Paint.solidP c.r c.g c.b c.a

/-- The kind of canvas object a node instantiates. -/
inductive ObjKind where
  | frameO | rectO | ellipseO | textO
deriving DecidableEq, Repr

/-- Host events in occurrence order. -/
inductive Ev where
  | created (id : Nat) (kind : ObjKind)
  | fontLoaded (family style : String)
  | fetched (url : String)
  | attached (parent child : Nat)
deriving DecidableEq, Repr

/-- A created canvas object with the properties the renderer assigns;
fields the renderer leaves alone keep their creation default. -/
structure RObj where
  id : Nat
  kind : ObjKind
  name : String := ""
  x : ℚ := 0
  y : ℚ := 0
  width : ℚ := 100
  height : ℚ := 100
  fills : List Paint := []
  strokes : List Paint := []
  strokeWeight : Option ℚ := none
  cornerRadius : Option ℚ := none
  opacity : Option ℚ := none
  clipsContent : Bool := false
  characters : Option String := none
  fontName : Option (String × String) := none
  fontSize : Option ℚ := none
  textAlignH : Option Align := none
  layoutMode : LayoutMode := LayoutMode.NONE
  paddingTop : Option ℚ := none
  paddingRight : Option ℚ := none
  paddingBottom : Option ℚ := none
  paddingLeft : Option ℚ := none
  itemSpacing : Option ℚ := none
  autoSizing : Bool := false
deriving DecidableEq, Repr

/-- The canvas-host state built up by one render. -/
structure RState where
  nextId : Nat := 0
  objects : List RObj := []
  attachments : List (Nat × Nat) := []
  events : List Ev := []
  fontCache : List String := []
  pageChildren : List Nat := []
  selection : List Nat := []
deriving DecidableEq, Repr

/-- Outcome of `await fetch(url)` plus the `res.ok` check: a body, a non-OK
response, or a rejected promise. -/
inductive FetchResult where
  | ok (bytes : List Nat)
  | httpError
  | networkError
deriving DecidableEq, Repr

/-- A render abort (an uncaught exception inside the render task). -/
inductive RErr where
  | fontErr (family style : String)
  | fetchErr (url : String)
  | decodeErr
  | screenshotErr (msg : String)
deriving DecidableEq, Repr

/-- The host environment: resource-load oracles and the viewport center. -/
structure Env where
  fetchO : String → FetchResult
  atobO : String → Option (List Nat)
  fontOk : String → String → Bool
  viewportX : ℚ
  viewportY : ℚ

/-- A raw screenshot payload handed to the renderer. -/
structure Screenshot where
  base64 : String
  mime : String
deriving DecidableEq, Repr

/-- Appends a finalized object to the creation list. -/
def pushObj (s : RState) (o : RObj) : RState :=
  { s with objects := s.objects ++ [o] }

/-- Appends a host event. -/
def emitEv (s : RState) (e : Ev) : RState :=
  { s with events := s.events ++ [e] }

/-- `parent.appendChild(child)`. -/
def attachChild (s : RState) (parent child : Nat) : RState :=
  { s with
    attachments := s.attachments ++ [(parent, child)]
    events := s.events ++ [Ev.attached parent child] }

/-- Allocates the next object id and records the creation event. -/
def freshId (s : RState) (k : ObjKind) : Nat × RState :=
  (s.nextId, emitEv { s with nextId := s.nextId + 1 } (Ev.created s.nextId k))

/-- The per-render font loader with its memoization map: a cache miss
records the load; the load outcome is the oracle's verdict for the
family/style pair (a cached rejected promise rejects again on await). -/
def loadFont (env : Env) (family style : String) (s : RState) :
    Except RErr RState :=
  let key := family ++ "::" ++ style
  let s1 := if s.fontCache.contains key then s
    else { s with
      fontCache := s.fontCache ++ [key]
      events := s.events ++ [Ev.fontLoaded family style] }
  if env.fontOk family style then Except.ok s1
  else Except.error (RErr.fontErr family style)

/-- JavaScript `o || d` for an optional string property. -/
def strOr (o : Option String) (d : String) : String :=
  match o with
  | some s => if s = "" then d else s
  | none => d

/-- Any line-terminator character, which `.` does not match in a
JavaScript regular expression: LF, CR, LINE SEPARATOR (U+2028) and
PARAGRAPH SEPARATOR (U+2029). -/
def isLineTerm (c : Char) : Bool :=
  c == '\n' || c == '\r' || c == '\u2028' || c == '\u2029'

/-- The match of `^data:(image\/[^;]+);base64,(.*)$` against a data URL:
the mime group (with its slash) and the base64 payload, or `none`. -/
def matchDataUrl (s : String) : Option (String × String) :=
  match splitWhen (fun c => c == ';') s.toList with
  | none => none
  | some (before, after) =>
    if strStarts "data:image/".toList before ∧ 11 < before.length
        ∧ strStarts "base64,".toList after then
      if (after.drop 7).any isLineTerm then none
      else some (String.mk (before.drop 5), String.mk (after.drop 7))
    else none

/-- `imagePaintFromNode`: an embedded data URL is decoded in place (a
non-matching URL yields no paint, an undecodable payload throws); a remote
reference is fetched (a non-OK response yields no paint, a rejected fetch
propagates); with neither source there is no paint. -/
def imagePaintFromNode (env : Env) (imageUrl imageDataUrl : Option String)
    (scaleMode : Option ScaleMode) (s : RState) :
    Except RErr (Option Paint × RState) :=
  let sm := scaleMode.getD ScaleMode.FILL
  if strTruthy imageDataUrl then
    match matchDataUrl (imageDataUrl.getD "") with
    | none => Except.ok (none, s)
    | some m =>
      match env.atobO m.2 with
      | none => Except.error RErr.decodeErr
      | some bytes => Except.ok (some (Paint.imageP bytes sm), s)
  else if strTruthy imageUrl then
    let url := imageUrl.getD ""
    match env.fetchO url with
    | FetchResult.networkError => Except.error (RErr.fetchErr url)
    | FetchResult.httpError => Except.ok (none, emitEv s (Ev.fetched url))
    | FetchResult.ok bytes =>
      Except.ok (some (Paint.imageP bytes sm), emitEv s (Ev.fetched url))
  else Except.ok (none, s)

/-- The stroke paints of a node: set only when both a stroke color and a
stroke width are present. -/
def strokePaints (stroke : Option RGBA) (sw : Option ℚ) : List Paint :=
  match stroke, sw with
  | some sc, some _ => [solid sc]
  | _, _ => []

/-- The stroke weight of a node: set only when both a stroke color and a
stroke width are present. -/
def strokeWeightOf (stroke : Option RGBA) (sw : Option ℚ) : Option ℚ :=
  match stroke, sw with
  | some _, some w => some w
  | _, _ => none

/-- The fill list of a rect or ellipse: the node fill, or a fully
transparent white. -/
def fillsOrTransparent (fill : Option RGBA) : List Paint :=
  match fill with
  | some c => [solid c]
  | none => [Paint.solidP 1 1 1 (some 0)]

/-- The fill list of a frame or text node: the node fill, or nothing. -/
def fillsOrEmpty (fill : Option RGBA) : List Paint :=
  match fill with
  | some c => [solid c]
  | none => []

/-- The font size assigned to a text object (the source guards the
assignment with JavaScript truthiness, so a zero font size is skipped). -/
def fontSizeSet (fsz : Option ℚ) : Option ℚ :=
  match fsz with
  | some q => if q = 0 then none else some q
  | none => none

/-- One padding side of a frame object: assigned (defaulting to zero) only
when a layout mode is active and a padding object is present. -/
def paddingSet (lm : LayoutMode) (side : Option ℚ) (pad : Option FramePadding) :
    Option ℚ :=
  if lm = LayoutMode.NONE then none
  else
    match pad with
    | some _ => some (side.getD 0)
    | none => none

mutual

/-- `renderNode`: resolves the local position, instantiates one canvas
object for the node, attaches it to the parent, and for frames detects the
child coordinate mode and recurses.  The best-effort text resize is modelled
as succeeding (its host failure is caught and ignored in the source). -/
def renderNode (env : Env) (node : DesignNode) (parentId : Nat)
    (parentAbsX parentAbsY parentWidth parentHeight : ℚ)
    (preferredCoordinateMode : CoordMode) (s : RState) :
    Except RErr RState :=
  let pos := chooseLocalPosition node parentAbsX parentAbsY parentWidth
    parentHeight preferredCoordinateMode
  match node with
  | DesignNode.rect b fill stroke sw cr =>
    let p := freshId s ObjKind.rectO
    let obj : RObj := {
      id := p.1
      kind := ObjKind.rectO
      name := strOr b.name "Rect"
      x := pos.1
      y := pos.2
      width := b.width
      height := b.height
      cornerRadius := inferPillRadius b.width b.height fill.isSome cr
      fills := fillsOrTransparent fill
      strokes := strokePaints stroke sw
      strokeWeight := strokeWeightOf stroke sw
      opacity := b.opacity }
    Except.ok (attachChild (pushObj p.2 obj) parentId p.1)
  | DesignNode.text b t fam sty fsz fill al =>
    let p := freshId s ObjKind.textO
    let family := strOr fam "Inter"
    let style := strOr sty "Regular"
    match loadFont env family style p.2 with
    | Except.error e => Except.error e
    | Except.ok s2 =>
      let obj : RObj := {
        id := p.1
        kind := ObjKind.textO
        name := strOr b.name "Text"
        x := pos.1
        y := pos.2
        width := b.width
        height := b.height
        fontName := some (family, style)
        characters := some t
        fontSize := fontSizeSet fsz
        fills := fillsOrEmpty fill
        textAlignH := al
        opacity := b.opacity }
      Except.ok (attachChild (pushObj s2 obj) parentId p.1)
  | DesignNode.ellipse b fill stroke sw =>
    let p := freshId s ObjKind.ellipseO
    let obj : RObj := {
      id := p.1
      kind := ObjKind.ellipseO
      name := strOr b.name "Ellipse"
      x := pos.1
      y := pos.2
      width := b.width
      height := b.height
      fills := fillsOrTransparent fill
      strokes := strokePaints stroke sw
      strokeWeight := strokeWeightOf stroke sw
      opacity := b.opacity }
    Except.ok (attachChild (pushObj p.2 obj) parentId p.1)
  | DesignNode.image b iu idu sm cr stroke sw =>
    let p := freshId s ObjKind.rectO
    match imagePaintFromNode env iu idu sm p.2 with
    | Except.error e => Except.error e
    | Except.ok pr =>
      let fills := match pr.1 with
        | some pa => [pa]
        | none => [Paint.solidP 0.9 0.9 0.9 (some 1)]
      let obj : RObj := {
        id := p.1
        kind := ObjKind.rectO
        name := strOr b.name "Image"
        x := pos.1
        y := pos.2
        width := b.width
        height := b.height
        cornerRadius := cr
        fills := fills
        strokes := strokePaints stroke sw
        strokeWeight := strokeWeightOf stroke sw
        opacity := b.opacity }
      Except.ok (attachChild (pushObj pr.2 obj) parentId p.1)
  | DesignNode.frame b lm pad isp fill stroke sw cr cs =>
    let p := freshId s ObjKind.frameO
    let obj : RObj := {
      id := p.1
      kind := ObjKind.frameO
      name := strOr b.name "Frame"
      x := pos.1
      y := pos.2
      width := b.width
      height := b.height
      fills := fillsOrEmpty fill
      strokes := strokePaints stroke sw
      strokeWeight := strokeWeightOf stroke sw
      cornerRadius := inferPillRadius b.width b.height fill.isSome cr
      opacity := b.opacity
      layoutMode := lm
      paddingTop := paddingSet lm (pad.bind (fun pd => pd.top)) pad
      paddingRight := paddingSet lm (pad.bind (fun pd => pd.right)) pad
      paddingBottom := paddingSet lm (pad.bind (fun pd => pd.bottom)) pad
      paddingLeft := paddingSet lm (pad.bind (fun pd => pd.left)) pad
      itemSpacing := if lm = LayoutMode.NONE then none else isp
      autoSizing := lm != LayoutMode.NONE }
    let s2 := attachChild (pushObj p.2 obj) parentId p.1
    let mode := detectCoordinateMode cs b.x b.y b.width b.height
    renderNodes env cs p.1 b.x b.y b.width b.height mode s2

/-- Renders a node list left to right, threading the host state and
propagating the first abort. -/
def renderNodes (env : Env) (nodes : List DesignNode) (parentId : Nat)
    (parentAbsX parentAbsY parentWidth parentHeight : ℚ)
    (preferredCoordinateMode : CoordMode) (s : RState) :
    Except RErr RState :=
  match nodes with
  | [] => Except.ok s
  | n :: rest =>
    match renderNode env n parentId parentAbsX parentAbsY parentWidth
        parentHeight preferredCoordinateMode s with
    | Except.error e => Except.error e
    | Except.ok s2 => renderNodes env rest parentId parentAbsX parentAbsY
        parentWidth parentHeight preferredCoordinateMode s2

end

/-- `normalizeScreenshot`: lowercases and checks the mime type and rejects
trivially small payloads. -/
def normalizeScreenshot : Option Screenshot → Except RErr (Option Screenshot)
  | none => Except.ok none
  | some sc =>
    let m := jToLower sc.mime
    if m = "" ∨ (m ≠ "image/png" ∧ m ≠ "image/jpeg" ∧ m ≠ "image/jpg") then
      Except.error (RErr.screenshotErr "unsupported image type")
    else if sc.base64 = "" ∨ sc.base64.length < 16 then
      Except.error (RErr.screenshotErr "image data too small")
    else Except.ok (some ⟨sc.base64, m⟩)

/-- `renderToFigma`: creates the root container (screenshot background when
given) and the content overlay, renders the top-level nodes into the
overlay with the default relative mode, then attaches the root to the page
and selects it. -/
def renderToFigma (env : Env) (spec : DesignSpec) (shot : Option Screenshot) :
    Except RErr RState :=
  match normalizeScreenshot shot with
  | Except.error e => Except.error e
  | Except.ok shotN =>
    let s0 : RState := {}
    let p := freshId s0 ObjKind.frameO
    let rootW := spec.canvas.width
    let rootH := spec.canvas.height
    let fillsE : Except RErr (List Paint) := match shotN with
      | some sc =>
        match env.atobO sc.base64 with
        | none => Except.error RErr.decodeErr
        | some bytes => Except.ok [Paint.imageP bytes ScaleMode.FILL]
      | none => Except.ok []
    match fillsE with
    | Except.error e => Except.error e
    | Except.ok rootFills =>
      let root : RObj := {
        id := p.1
        kind := ObjKind.frameO
        name := if spec.canvas.name = "" then "Generated" else spec.canvas.name
        width := rootW
        height := rootH
        x := env.viewportX - rootW / 2
        y := env.viewportY - rootH / 2
        clipsContent := true
        fills := rootFills }
      let s1 := pushObj p.2 root
      let q := freshId s1 ObjKind.frameO
      let overlay : RObj := {
        id := q.1
        kind := ObjKind.frameO
        name := "AI layers"
        width := rootW
        height := rootH
        x := 0
        y := 0
        fills := []
        strokes := [] }
      let s2 := attachChild (pushObj q.2 overlay) p.1 q.1
      match renderNodes env spec.nodes q.1 0 0 rootW rootH
          CoordMode.relative s2 with
      | Except.error e => Except.error e
      | Except.ok s3 =>
        Except.ok { s3 with
          pageChildren := s3.pageChildren ++ [p.1]
          selection := [p.1] }

/-! ## Shared lemmas -/

theorem jalt_some (v : α) (b : Unit → Option α) : jalt (some v) b = some v := rfl

theorem jalt_none (b : Unit → Option α) : jalt none b = b () := rfl

theorem lookupField_append (l1 l2 : List (String × JVal)) (key : String) :
    lookupField (l1 ++ l2) key =
      jalt (lookupField l1 key) (fun _ => lookupField l2 key) := by
  induction l1 with
  | nil => simp [lookupField, jalt]
  | cons h t ih =>
    obtain ⟨k, v⟩ := h
    by_cases hk : k = key <;> simp [lookupField, hk, ih, jalt]

theorem lookup_optEntry_self (key : String) (o : Option JVal) :
    lookupField (optEntry key o) key = o := by
  cases o <;> simp [optEntry, lookupField]

theorem lookup_optEntry_ne (k key : String) (h : ¬ k = key) (o : Option JVal) :
    lookupField (optEntry k o) key = none := by
  cases o <;> simp [optEntry, lookupField, h]

theorem lookup_strEntry_ne (k key : String) (h : ¬ k = key) (o : Option JVal) :
    lookupField (strEntry k o) key = none := by
  cases o with
  | none => simp [strEntry, lookupField]
  | some v => cases v <;> simp [strEntry, lookupField, h]

theorem lookup_numEntry_ne (k key : String) (h : ¬ k = key) (o : Option JVal) :
    lookupField (numEntry k o) key = none := by
  unfold numEntry
  cases toNumberO o <;> simp [lookupField, h]

theorem lookup_truthyEntry_ne (k key : String) (h : ¬ k = key) (o : Option JVal) :
    lookupField (truthyEntry k o) key = none := by
  cases o with
  | none => simp [truthyEntry, lookupField]
  | some v =>
    unfold truthyEntry
    by_cases hv : jsTruthy v = true <;> simp [hv, lookupField, h]

theorem normalizeNode_succ (v : JVal) :
    normalizeNode v = normalizeNodeF (Nat.succ (jdepth v)) v := rfl

theorem parseDesignNode_succ (v : JVal) :
    parseDesignNode v = parseNodeF (Nat.succ (jdepth v)) v := rfl

/-! ## Claim C3: pill-radius inference -/

/-- C3 counterexample: a rect with no explicit radius, a fill, height 27 and
width 60 meets every stated condition, yet the inferred radius is
`Math.floor(27 / 2) = 13`, not `27 / 2` as the claim states. -/
theorem C3_counterexample :
    inferPillRadius 60 27 true none = some 13 ∧ ((13 : ℚ) ≠ 27 / 2) := by
  constructor
  · norm_num [inferPillRadius]
  · norm_num

/-- C3 (amended): with no explicit corner radius, a fill present,
height at most 28 and width at least 1.6 times the height, the renderer
infers a radius of the floor of half the height (height 24, width 60 gives
12); when the fill is missing or the shape test fails, no radius is
inferred; and the rect instantiation applies exactly this inference as the
corner radius of the created object. -/
theorem C3_pill_radius :
    (∀ w h : ℚ, h ≤ 28 → w ≥ h * 1.6 →
      inferPillRadius w h true none = some ((⌊h / 2⌋ : ℤ) : ℚ))
    ∧ (∀ w h : ℚ, ¬ (h ≤ 28 ∧ w ≥ h * 1.6) →
      inferPillRadius w h true none = none)
    ∧ (∀ w h : ℚ, inferPillRadius w h false none = none)
    ∧ inferPillRadius 60 24 true none = some 12
    ∧ inferPillRadius 60 40 true none = none
    ∧ (∀ env b fill stroke sw cr pid pax pay pw ph pref s,
      (renderNode env (DesignNode.rect b fill stroke sw cr) pid pax pay pw ph
          pref s).map (fun s2 => s2.objects.map (fun o => o.cornerRadius)) =
        Except.ok (s.objects.map (fun o => o.cornerRadius)
          ++ [inferPillRadius b.width b.height fill.isSome cr])) := by
  refine ⟨?_, ?_, ?_, by norm_num [inferPillRadius], by norm_num [inferPillRadius], ?_⟩
  · intro w h h1 h2
    simp [inferPillRadius, h1, h2]
  · intro w h h1
    simp [inferPillRadius, h1]
  · intro w h
    simp [inferPillRadius]
  · intro env b fill stroke sw cr pid pax pay pw ph pref s
    simp [renderNode, attachChild, pushObj, freshId, emitEv, Except.map]

/-- C3 witness: the amended theorem at the spec example (height 24,
width 60). -/
theorem C3_pill_radius_witness :
    inferPillRadius 60 24 true none = some ((⌊(24 : ℚ) / 2⌋ : ℤ) : ℚ)
    ∧ inferPillRadius 60 40 true none = none := by
  constructor
  · exact C3_pill_radius.1 60 24 (by norm_num) (by norm_num)
  · exact C3_pill_radius.2.1 60 40 (by norm_num)

/-! ## Claims C1 and C9: coordinate resolution -/

/-- The spec example child: x 120, y 130, width 50, height 40. -/
def c1child : DesignNode :=
  DesignNode.rect ⟨none, 120, 130, 50, 40, none⟩ none none none none

/-- C9: `detectCoordinateMode` is absolute exactly when the aggregate
absolute score strictly exceeds the aggregate relative score; an empty
child list and an aggregate tie both give relative; and since the preferred
mode is always one of the two decided values, `chooseLocalPosition`
coincides with its fallback-free variant — the parent-origin branch is
dead code. -/
theorem C9_detect_mode_and_dead_fallback :
    (∀ nodes pax pay pw ph,
      detectCoordinateMode nodes pax pay pw ph = CoordMode.absolute ↔
        (detectScores nodes pax pay pw ph).1 < (detectScores nodes pax pay pw ph).2)
    ∧ (∀ pax pay pw ph : ℚ,
        detectCoordinateMode [] pax pay pw ph = CoordMode.relative)
    ∧ (∀ nodes pax pay pw ph,
        (detectScores nodes pax pay pw ph).1 = (detectScores nodes pax pay pw ph).2 →
        detectCoordinateMode nodes pax pay pw ph = CoordMode.relative)
    ∧ (∀ node pax pay pw ph pref,
        chooseLocalPosition node pax pay pw ph pref =
          chooseLocalPositionDecided node pax pay pw ph pref) := by
  refine ⟨?_, ?_, ?_, ?_⟩
  · intro nodes pax pay pw ph
    by_cases h : (detectScores nodes pax pay pw ph).1 < (detectScores nodes pax pay pw ph).2 <;>
      simp [detectCoordinateMode, h]
  · intro pax pay pw ph
    simp [detectCoordinateMode, detectScores]
  · intro nodes pax pay pw ph h
    simp [detectCoordinateMode, h]
  · intro node pax pay pw ph pref
    cases pref <;> simp [chooseLocalPosition, chooseLocalPositionDecided]

/-- C9 witness: the theorem instantiated at the spec example child and
parent. -/
theorem C9_witness :
    detectCoordinateMode [] (100 : ℚ) 100 400 300 = CoordMode.relative
    ∧ detectCoordinateMode [c1child] 100 100 400 300 = CoordMode.relative
    ∧ chooseLocalPosition c1child 100 100 400 300 CoordMode.relative =
        chooseLocalPositionDecided c1child 100 100 400 300 CoordMode.relative := by
  refine ⟨C9_detect_mode_and_dead_fallback.2.1 100 100 400 300, ?_, ?_⟩
  · refine C9_detect_mode_and_dead_fallback.2.2.1 [c1child] 100 100 400 300 ?_
    norm_num [detectScores, fitScore, c1child, DesignNode.base]
  · exact C9_detect_mode_and_dead_fallback.2.2.2 c1child 100 100 400 300
      CoordMode.relative

/-- C1 counterexample: at the spec example (parent absolute origin
(100,100), size (400,300), child (120,130,50,40)) both interpretations
score 4 of 4, yet the pipeline — the aggregate mode of
`detectCoordinateMode` fed into `chooseLocalPosition` — resolves the tie to
the relative interpretation (120,130), not the absolute one (20,30). -/
theorem C1_counterexample :
    fitScore 120 130 50 40 400 300 = 4
    ∧ fitScore (120 - 100) (130 - 100) 50 40 400 300 = 4
    ∧ chooseLocalPosition c1child 100 100 400 300
        (detectCoordinateMode [c1child] 100 100 400 300) = (120, 130)
    ∧ chooseLocalPosition c1child 100 100 400 300
        (detectCoordinateMode [c1child] 100 100 400 300) ≠ ((20 : ℚ), (30 : ℚ)) := by
  refine ⟨by norm_num [fitScore], by norm_num [fitScore], ?_, ?_⟩ <;>
    norm_num [chooseLocalPosition, detectCoordinateMode, detectScores, fitScore,
      c1child, DesignNode.base, Prod.ext_iff] <;> decide

/-- C1 (amended): on a per-child exact tie the resolution follows the
preferred mode handed down by the frame aggregate; an aggregate tie yields
the relative mode regardless of the parent origin, so the spec example
resolves to the relative interpretation (120,130); the parent-origin
tie-break branch, though present in the source, is not what decides it. -/
theorem C1_tie_follows_aggregate :
    (∀ node pax pay pw ph pref,
      fitScore node.base.x node.base.y node.base.width node.base.height pw ph =
        fitScore (node.base.x - pax) (node.base.y - pay) node.base.width
          node.base.height pw ph →
      chooseLocalPosition node pax pay pw ph pref =
        (match pref with
          | CoordMode.absolute => (node.base.x - pax, node.base.y - pay)
          | CoordMode.relative => (node.base.x, node.base.y)))
    ∧ (∀ nodes pax pay pw ph,
        (detectScores nodes pax pay pw ph).1 = (detectScores nodes pax pay pw ph).2 →
        detectCoordinateMode nodes pax pay pw ph = CoordMode.relative)
    ∧ chooseLocalPosition c1child 100 100 400 300
        (detectCoordinateMode [c1child] 100 100 400 300) = (120, 130) := by
  refine ⟨?_, ?_, ?_⟩
  · intro node pax pay pw ph pref h
    cases pref <;> simp [chooseLocalPosition, h]
  · intro nodes pax pay pw ph h
    simp [detectCoordinateMode, h]
  · norm_num [chooseLocalPosition, detectCoordinateMode, detectScores, fitScore,
      c1child, DesignNode.base]
    decide

/-- C1 witness: the amended theorem at the spec example. -/
theorem C1_witness :
    chooseLocalPosition c1child 100 100 400 300 CoordMode.relative =
      (c1child.base.x, c1child.base.y)
    ∧ detectCoordinateMode [c1child] 100 100 400 300 = CoordMode.relative := by
  constructor
  · exact C1_tie_follows_aggregate.1 c1child 100 100 400 300 CoordMode.relative
      (by norm_num [fitScore, c1child, DesignNode.base])
  · exact C1_tie_follows_aggregate.2.1 [c1child] 100 100 400 300
      (by norm_num [detectScores, fitScore, c1child, DesignNode.base])

/-! ## Claim C4: numeric font-weight aliasing -/

theorem fontStyleEntry_of_weight (fields : List (String × JVal)) (w : ℚ)
    (hsty : ∀ s, lookupField fields "fontStyle" ≠ some (JVal.str s))
    (hw : toNumberO (lookupField fields "fontWeight") = some w) :
    fontStyleEntry fields = [("fontStyle", JVal.str (weightToStyle w))] := by
  unfold fontStyleEntry
  cases h2 : lookupField fields "fontStyle" with
  | none => simp [hw]
  | some v =>
    cases v with
    | str s => exact absurd h2 (hsty s)
    | num q => simp [hw]
    | bool b => simp [hw]
    | null => simp [hw]
    | arr xs => simp [hw]
    | obj fs => simp [hw]

/-- The raw fields of the spec example text node with numeric weight 450. -/
def c4fields : List (String × JVal) := [("type", JVal.str "text"),
  ("x", JVal.num 10), ("y", JVal.num 20), ("width", JVal.num 100),
  ("height", JVal.num 24), ("fontWeight", JVal.num 450)]

/-- The raw text node of the spec example with numeric weight 450. -/
def c4raw : JVal := JVal.obj c4fields

/-- C4 counterexample: normalizing a text node carrying fontWeight 450 and
no explicit style yields the style "Regular", not "Medium" — the Medium
bucket starts at weight 500. -/
theorem C4_counterexample :
    (normalizeNode c4raw).bind (fun v => jGet v "fontStyle") =
      some (JVal.str "Regular")
    ∧ ("Regular" : String) ≠ "Medium" := by
  constructor
  · rfl
  · decide

/-- C4 (amended): for a raw text node with coercible geometry, no string
`fontStyle`, and a coercible numeric `fontWeight` w, the normalizer emits
the canonical style of the source chain — Bold from 700 up, Semibold from
600, Medium from 500, else Regular; in particular weight 700 gives "Bold"
and weight 450 gives "Regular". -/
theorem C4_weight_alias (fields : List (String × JVal)) (qx qy qw qh w : ℚ)
    (hty : lookupField fields "type" = some (JVal.str "text"))
    (hx : toNumberO (lookupField fields "x") = some qx)
    (hy : toNumberO (lookupField fields "y") = some qy)
    (hwd : toNumberO (lookupField fields "width") = some qw)
    (hh : toNumberO (lookupField fields "height") = some qh)
    (hsty : ∀ s, lookupField fields "fontStyle" ≠ some (JVal.str s))
    (hw : toNumberO (lookupField fields "fontWeight") = some w) :
    (normalizeNode (JVal.obj fields)).bind (fun v => jGet v "fontStyle") =
      some (JVal.str (weightToStyle w))
    ∧ weightToStyle 700 = "Bold" ∧ weightToStyle 450 = "Regular" := by
  refine ⟨?_, by norm_num [weightToStyle], by norm_num [weightToStyle]⟩
  rw [normalizeNode_succ]
  simp only [normalizeNodeF, hty, hx, hy, hwd, hh,
    fontStyleEntry_of_weight fields w hsty hw]
  simp +decide [jGet, lookupField_append, jalt, lookupField, lookup_strEntry_ne,
    lookup_numEntry_ne, Option.bind]

/-- C4 witness: the amended theorem at the concrete weight-450 node. -/
theorem C4_witness :
    (normalizeNode (JVal.obj c4fields)).bind (fun v => jGet v "fontStyle") =
      some (JVal.str (weightToStyle 450))
    ∧ weightToStyle 700 = "Bold" ∧ weightToStyle 450 = "Regular" :=
  C4_weight_alias c4fields 10 20 100 24 450 rfl rfl rfl rfl rfl
    (by intro s h; simp +decide [c4fields, lookupField] at h) rfl

/-! ## Claim C2: sourceless image nodes -/

/-- A raw image node lacking both source fields, with optional name and
corner radius. -/
def mkImageRaw (name? : Option String) (qx qy qw qh : ℚ) (cr? : Option ℚ) :
    List (String × JVal) :=
  [("type", JVal.str "image"), ("x", JVal.num qx), ("y", JVal.num qy),
    ("width", JVal.num qw), ("height", JVal.num qh)]
  ++ optEntry "name" (name?.map JVal.str)
  ++ optEntry "cornerRadius" (cr?.map JVal.num)

/-- C2 counterexample: an image node lacking both sources whose width is
not positive.  Direct validation fails, the normalizer does rewrite it into
a placeholder rectangle with the same (degenerate) bounds, but validating
the placeholder fails as well, against the claim's "after which validation
succeeds". -/
theorem C2_counterexample :
    parseDesignNode (JVal.obj (mkImageRaw none 0 0 (-1) 10 none)) = none
    ∧ normalizeNode (JVal.obj (mkImageRaw none 0 0 (-1) 10 none)) =
        some (imagePlaceholder (mkImageRaw none 0 0 (-1) 10 none) 0 0 (-1) 10)
    ∧ jGet (imagePlaceholder (mkImageRaw none 0 0 (-1) 10 none) 0 0 (-1) 10)
        "width" = some (JVal.num (-1))
    ∧ parseDesignNode
        (imagePlaceholder (mkImageRaw none 0 0 (-1) 10 none) 0 0 (-1) 10) = none := by
  refine ⟨rfl, rfl, rfl, ?_⟩
  rw [parseDesignNode_succ]
  simp +decide [parseNodeF, imagePlaceholder, mkImageRaw, optEntry, parseRect,
    parseText, parseFrame, parseEllipse, parseImage, parseBase, reqField,
    optField, litStr, asString, asNumber, numPos, lookupField, jalt,
    Option.bind, toNumberO, toNumber]

/-- The placeholder name: the source name suffixed, or the fixed one. -/
def phName (name? : Option String) : String :=
  match name? with
  | some s => s ++ " Placeholder"
  | none => "Image Placeholder"

/-- The placeholder corner radius: the coerced source radius, defaulting
to 8. -/
def phCr (cr? : Option ℚ) : ℚ := cr?.getD 8

/-- The field list of the placeholder rectangle in normal form. -/
def phFields (name? : Option String) (qx qy qw qh : ℚ) (cr? : Option ℚ) :
    List (String × JVal) :=
  [("type", JVal.str "rect"), ("name", JVal.str (phName name?)),
    ("x", JVal.num qx), ("y", JVal.num qy), ("width", JVal.num qw),
    ("height", JVal.num qh), ("cornerRadius", JVal.num (phCr cr?)),
    ("fill", JVal.obj [("r", JVal.num 0.9), ("g", JVal.num 0.92),
      ("b", JVal.num 0.95), ("a", JVal.num 1)])]

theorem imagePlaceholder_mk (name? : Option String) (qx qy qw qh : ℚ)
    (cr? : Option ℚ) :
    imagePlaceholder (mkImageRaw name? qx qy qw qh cr?) qx qy qw qh =
      JVal.obj (phFields name? qx qy qw qh cr?) := by
  rcases name? with _ | nm <;> rcases cr? with _ | q <;>
    simp [imagePlaceholder, mkImageRaw, optEntry, lookupField, toNumberO,
      toNumber, phName, phCr, phFields]

theorem mkImageRaw_lookup (name? : Option String) (qx qy qw qh : ℚ)
    (cr? : Option ℚ) :
    lookupField (mkImageRaw name? qx qy qw qh cr?) "type" =
      some (JVal.str "image")
    ∧ lookupField (mkImageRaw name? qx qy qw qh cr?) "x" = some (JVal.num qx)
    ∧ lookupField (mkImageRaw name? qx qy qw qh cr?) "y" = some (JVal.num qy)
    ∧ lookupField (mkImageRaw name? qx qy qw qh cr?) "width" =
      some (JVal.num qw)
    ∧ lookupField (mkImageRaw name? qx qy qw qh cr?) "height" =
      some (JVal.num qh)
    ∧ lookupField (mkImageRaw name? qx qy qw qh cr?) "name" =
      Option.map JVal.str name?
    ∧ lookupField (mkImageRaw name? qx qy qw qh cr?) "cornerRadius" =
      Option.map JVal.num cr?
    ∧ lookupField (mkImageRaw name? qx qy qw qh cr?) "opacity" = none
    ∧ lookupField (mkImageRaw name? qx qy qw qh cr?) "imageUrl" = none
    ∧ lookupField (mkImageRaw name? qx qy qw qh cr?) "imageDataUrl" = none
    ∧ lookupField (mkImageRaw name? qx qy qw qh cr?) "scaleMode" = none
    ∧ lookupField (mkImageRaw name? qx qy qw qh cr?) "stroke" = none
    ∧ lookupField (mkImageRaw name? qx qy qw qh cr?) "strokeWidth" = none := by
  rcases name? with _ | nm <;> rcases cr? with _ | q <;>
    refine ⟨rfl, rfl, rfl, rfl, rfl, rfl, rfl, rfl, rfl, rfl, rfl, rfl, rfl⟩

theorem optField_of_none (fields : List (String × JVal)) (key : String)
    (dec : JVal → Option α) (h : lookupField fields key = none) :
    optField fields key dec = some none := by
  simp [optField, h]

theorem optField_of_map_str (fields : List (String × JVal)) (key : String)
    (o : Option String) (h : lookupField fields key = Option.map JVal.str o) :
    optField fields key asString = some o := by
  cases o <;> simp [optField, h, asString]

theorem optField_of_map_num_ge (lo : ℚ) (fields : List (String × JVal))
    (key : String) (o : Option ℚ)
    (h : lookupField fields key = Option.map JVal.num o)
    (hge : ∀ q, o = some q → lo ≤ q) :
    optField fields key (numMin lo) = some o := by
  cases o with
  | none => simp [optField, h]
  | some q => simp [optField, h, numMin, asNumber, hge q rfl]

theorem parseBase_eval (fields : List (String × JVal)) (name? : Option String)
    (qx qy qw qh : ℚ)
    (hn : lookupField fields "name" = Option.map JVal.str name?)
    (hx : lookupField fields "x" = some (JVal.num qx))
    (hy : lookupField fields "y" = some (JVal.num qy))
    (hwl : lookupField fields "width" = some (JVal.num qw))
    (hhl : lookupField fields "height" = some (JVal.num qh))
    (hop : lookupField fields "opacity" = none)
    (hw : 0 < qw) (hh : 0 < qh) :
    parseBase fields = some ⟨name?, qx, qy, qw, qh, none⟩ := by
  simp [parseBase, reqField, optField_of_map_str fields "name" name? hn,
    optField_of_none fields "opacity" numUnit hop, hx, hy, hwl, hhl,
    asNumber, numPos, hw, hh]

theorem parseRect_none_of_type (fields : List (String × JVal)) (ty : String)
    (hty : lookupField fields "type" = some (JVal.str ty)) (h : ¬ ty = "rect") :
    parseRect fields = none := by
  simp [parseRect, reqField, hty, litStr, asString, h]

theorem parseText_none_of_type (fields : List (String × JVal)) (ty : String)
    (hty : lookupField fields "type" = some (JVal.str ty)) (h : ¬ ty = "text") :
    parseText fields = none := by
  simp [parseText, reqField, hty, litStr, asString, h]

theorem parseFrame_none_of_type (fields : List (String × JVal)) (ty : String)
    (pc : List JVal → Option (List DesignNode))
    (hty : lookupField fields "type" = some (JVal.str ty))
    (h : ¬ ty = "frame") :
    parseFrame pc fields = none := by
  simp [parseFrame, reqField, hty, litStr, asString, h]

theorem parseEllipse_none_of_type (fields : List (String × JVal)) (ty : String)
    (hty : lookupField fields "type" = some (JVal.str ty))
    (h : ¬ ty = "ellipse") :
    parseEllipse fields = none := by
  simp [parseEllipse, reqField, hty, litStr, asString, h]

theorem parseImage_none_of_type (fields : List (String × JVal)) (ty : String)
    (hty : lookupField fields "type" = some (JVal.str ty))
    (h : ¬ ty = "image") :
    parseImage fields = none := by
  simp [parseImage, reqField, hty, litStr, asString, h]

theorem C2aux_parse_raw_none (name? : Option String) (qx qy qw qh : ℚ)
    (cr? : Option ℚ) (hw : 0 < qw) (hh : 0 < qh)
    (hcr : ∀ q, cr? = some q → 0 ≤ q) :
    parseDesignNode (JVal.obj (mkImageRaw name? qx qy qw qh cr?)) = none := by
  obtain ⟨lt, lx, ly, lw, lh, ln, lcr, lop, liu, lidu, lsm, lst, lsw⟩ :=
    mkImageRaw_lookup name? qx qy qw qh cr?
  have himg : parseImage (mkImageRaw name? qx qy qw qh cr?) = none := by
    simp [parseImage, reqField, lt, litStr, asString,
      parseBase_eval _ name? qx qy qw qh ln lx ly lw lh lop hw hh,
      optField_of_none _ "imageUrl" strMin1 liu,
      optField_of_none _ "imageDataUrl" strDataUrl lidu,
      optField_of_none _ "scaleMode" parseScaleMode lsm,
      optField_of_none _ "stroke" parseColor lst,
      optField_of_none _ "strokeWidth" (numMin 0) lsw,
      optField_of_map_num_ge 0 _ "cornerRadius" cr? lcr hcr, strTruthy]
  rw [parseDesignNode_succ]
  simp [parseNodeF, jalt,
    parseRect_none_of_type _ "image" lt (by decide),
    parseText_none_of_type _ "image" lt (by decide),
    parseFrame_none_of_type _ "image" _ lt (by decide),
    parseEllipse_none_of_type _ "image" lt (by decide), himg]

theorem C2aux_normalize (name? : Option String) (qx qy qw qh : ℚ)
    (cr? : Option ℚ) :
    normalizeNode (JVal.obj (mkImageRaw name? qx qy qw qh cr?)) =
      some (imagePlaceholder (mkImageRaw name? qx qy qw qh cr?) qx qy qw qh) := by
  rw [normalizeNode_succ]
  rcases name? with _ | nm <;> rcases cr? with _ | q <;>
    simp [normalizeNodeF, mkImageRaw, optEntry, lookupField, toNumberO,
      toNumber, strEntry, numEntry, imagePlaceholder]

theorem phFields_parseRect (name? : Option String) (qx qy qw qh : ℚ)
    (cr? : Option ℚ) (hw : 0 < qw) (hh : 0 < qh)
    (hcr : ∀ q, cr? = some q → 0 ≤ q) :
    parseRect (phFields name? qx qy qw qh cr?) =
      some (DesignNode.rect ⟨some (phName name?), qx, qy, qw, qh, none⟩
        (some ⟨0.9, 0.92, 0.95, some 1⟩) none none (some (phCr cr?))) := by
  have hphcr : (0 : ℚ) ≤ phCr cr? := by
    rcases cr? with _ | q
    · norm_num [phCr]
    · simpa [phCr] using hcr q rfl
  have lfill : parseColor (JVal.obj [("r", JVal.num 0.9), ("g", JVal.num 0.92),
      ("b", JVal.num 0.95), ("a", JVal.num 1)]) =
      some ⟨0.9, 0.92, 0.95, some 1⟩ := by
    have hr : lookupField [("r", JVal.num 0.9), ("g", JVal.num 0.92),
        ("b", JVal.num 0.95), ("a", JVal.num 1)] "r" = some (JVal.num 0.9) := rfl
    have hg : lookupField [("r", JVal.num 0.9), ("g", JVal.num 0.92),
        ("b", JVal.num 0.95), ("a", JVal.num 1)] "g" = some (JVal.num 0.92) := rfl
    have hb : lookupField [("r", JVal.num 0.9), ("g", JVal.num 0.92),
        ("b", JVal.num 0.95), ("a", JVal.num 1)] "b" = some (JVal.num 0.95) := rfl
    have ha : lookupField [("r", JVal.num 0.9), ("g", JVal.num 0.92),
        ("b", JVal.num 0.95), ("a", JVal.num 1)] "a" = some (JVal.num 1) := rfl
    simp [parseColor, reqField, optField, hr, hg, hb, ha, numUnit, asNumber,
      show (0:ℚ) ≤ 0.9 ∧ (0.9:ℚ) ≤ 1 from by norm_num,
      show (0:ℚ) ≤ 0.92 ∧ (0.92:ℚ) ≤ 1 from by norm_num,
      show (0:ℚ) ≤ 0.95 ∧ (0.95:ℚ) ≤ 1 from by norm_num,
      show (0:ℚ) ≤ 1 ∧ (1:ℚ) ≤ 1 from by norm_num]
  have hb2 : parseBase (phFields name? qx qy qw qh cr?) =
      some ⟨some (phName name?), qx, qy, qw, qh, none⟩ :=
    parseBase_eval _ (some (phName name?)) qx qy qw qh rfl rfl rfl rfl rfl rfl
      hw hh
  have hfill : optField (phFields name? qx qy qw qh cr?) "fill" parseColor =
      some (some ⟨0.9, 0.92, 0.95, some 1⟩) := by
    simp [optField, show lookupField (phFields name? qx qy qw qh cr?) "fill" =
      some (JVal.obj [("r", JVal.num 0.9), ("g", JVal.num 0.92),
        ("b", JVal.num 0.95), ("a", JVal.num 1)]) from rfl, lfill]
  have hcrf : optField (phFields name? qx qy qw qh cr?) "cornerRadius"
      (numMin 0) = some (some (phCr cr?)) := by
    simp [optField, show lookupField (phFields name? qx qy qw qh cr?)
      "cornerRadius" = some (JVal.num (phCr cr?)) from rfl, numMin, asNumber,
      hphcr]
  simp [parseRect, show reqField (phFields name? qx qy qw qh cr?) "type"
      (litStr "rect") = some () from rfl, hb2, hfill, hcrf,
    optField_of_none (phFields name? qx qy qw qh cr?) "stroke" parseColor rfl,
    optField_of_none (phFields name? qx qy qw qh cr?) "strokeWidth"
      (numMin 0) rfl]

theorem phFields_parse (name? : Option String) (qx qy qw qh : ℚ)
    (cr? : Option ℚ) (hw : 0 < qw) (hh : 0 < qh)
    (hcr : ∀ q, cr? = some q → 0 ≤ q) :
    parseDesignNode (JVal.obj (phFields name? qx qy qw qh cr?)) =
      some (DesignNode.rect ⟨some (phName name?), qx, qy, qw, qh, none⟩
        (some ⟨0.9, 0.92, 0.95, some 1⟩) none none (some (phCr cr?))) := by
  rw [parseDesignNode_succ]
  simp [parseNodeF, jalt, phFields_parseRect name? qx qy qw qh cr? hw hh hcr]

theorem C2aux_parse_placeholder (name? : Option String) (qx qy qw qh : ℚ)
    (cr? : Option ℚ) (hw : 0 < qw) (hh : 0 < qh)
    (hcr : ∀ q, cr? = some q → 0 ≤ q) :
    (parseDesignNode
        (imagePlaceholder (mkImageRaw name? qx qy qw qh cr?) qx qy qw qh)).map
        (fun nd => (nd.base.x, nd.base.y, nd.base.width, nd.base.height)) =
      some (qx, qy, qw, qh) := by
  rw [imagePlaceholder_mk, phFields_parse name? qx qy qw qh cr? hw hh hcr]
  simp [DesignNode.base]

/-- C2 (amended): for every image node lacking both `imageUrl` and
`imageDataUrl` whose width and height are positive and whose corner radius,
when present, is non-negative: validating it directly fails (the `.refine`
rejects it), while normalizing first rewrites it in place into a rectangle
placeholder with identical x, y, width and height bounds, after which
validation succeeds and preserves those bounds. -/
theorem C2_image_placeholder (name? : Option String) (qx qy qw qh : ℚ)
    (cr? : Option ℚ) (hw : 0 < qw) (hh : 0 < qh)
    (hcr : ∀ q, cr? = some q → 0 ≤ q) :
    parseDesignNode (JVal.obj (mkImageRaw name? qx qy qw qh cr?)) = none
    ∧ normalizeNode (JVal.obj (mkImageRaw name? qx qy qw qh cr?)) =
        some (imagePlaceholder (mkImageRaw name? qx qy qw qh cr?) qx qy qw qh)
    ∧ jGet (imagePlaceholder (mkImageRaw name? qx qy qw qh cr?) qx qy qw qh)
        "type" = some (JVal.str "rect")
    ∧ jGet (imagePlaceholder (mkImageRaw name? qx qy qw qh cr?) qx qy qw qh)
        "x" = some (JVal.num qx)
    ∧ jGet (imagePlaceholder (mkImageRaw name? qx qy qw qh cr?) qx qy qw qh)
        "y" = some (JVal.num qy)
    ∧ jGet (imagePlaceholder (mkImageRaw name? qx qy qw qh cr?) qx qy qw qh)
        "width" = some (JVal.num qw)
    ∧ jGet (imagePlaceholder (mkImageRaw name? qx qy qw qh cr?) qx qy qw qh)
        "height" = some (JVal.num qh)
    ∧ (parseDesignNode
        (imagePlaceholder (mkImageRaw name? qx qy qw qh cr?) qx qy qw qh)).map
        (fun nd => (nd.base.x, nd.base.y, nd.base.width, nd.base.height)) =
        some (qx, qy, qw, qh) :=
  ⟨C2aux_parse_raw_none name? qx qy qw qh cr? hw hh hcr,
    C2aux_normalize name? qx qy qw qh cr?, rfl, rfl, rfl, rfl, rfl,
    C2aux_parse_placeholder name? qx qy qw qh cr? hw hh hcr⟩

/-- C2 witness: the amended theorem at a concrete sourceless image node. -/
theorem C2_witness :
    parseDesignNode (JVal.obj (mkImageRaw (some "pic") 1 2 30 40 (some 5))) = none
    ∧ normalizeNode (JVal.obj (mkImageRaw (some "pic") 1 2 30 40 (some 5))) =
        some (imagePlaceholder (mkImageRaw (some "pic") 1 2 30 40 (some 5)) 1 2 30 40)
    ∧ jGet (imagePlaceholder (mkImageRaw (some "pic") 1 2 30 40 (some 5)) 1 2 30 40)
        "type" = some (JVal.str "rect")
    ∧ jGet (imagePlaceholder (mkImageRaw (some "pic") 1 2 30 40 (some 5)) 1 2 30 40)
        "x" = some (JVal.num 1)
    ∧ jGet (imagePlaceholder (mkImageRaw (some "pic") 1 2 30 40 (some 5)) 1 2 30 40)
        "y" = some (JVal.num 2)
    ∧ jGet (imagePlaceholder (mkImageRaw (some "pic") 1 2 30 40 (some 5)) 1 2 30 40)
        "width" = some (JVal.num 30)
    ∧ jGet (imagePlaceholder (mkImageRaw (some "pic") 1 2 30 40 (some 5)) 1 2 30 40)
        "height" = some (JVal.num 40)
    ∧ (parseDesignNode
        (imagePlaceholder (mkImageRaw (some "pic") 1 2 30 40 (some 5)) 1 2 30 40)).map
        (fun nd => (nd.base.x, nd.base.y, nd.base.width, nd.base.height)) =
        some (1, 2, 30, 40) :=
  C2_image_placeholder (some "pic") 1 2 30 40 (some 5) (by norm_num)
    (by norm_num)
    (by
      intro q hq
      obtain rfl : (5 : ℚ) = q := by injection hq
      norm_num)

/-! ## Claims C5 and C10: image paint fallback -/

theorem strTruthy_of_starts (ds : String)
    (hd : jStartsWith ds "data:image/" = true) : strTruthy (some ds) = true := by
  cases hds : ds.toList with
  | nil =>
    rw [jStartsWith, hds] at hd
    simp [strStarts] at hd
  | cons c cs =>
    have : ds ≠ "" := by
      intro h
      rw [h] at hds
      simp at hds
    simp [strTruthy, this]

/-- C10: a validated image node whose data URL carries the checked prefix
but fails the full data-URL pattern resolves to no paint without raising,
the created object carries the neutral gray fallback fill, and the walk
continues past the node. -/
theorem C10_bad_dataurl (env : Env) (b : NodeBase) (iu : Option String)
    (ds : String) (sm : Option ScaleMode) (cr : Option ℚ)
    (stroke : Option RGBA) (sw : Option ℚ) (pid : Nat) (pax pay pw ph : ℚ)
    (pref : CoordMode) (s : RState)
    (hd : jStartsWith ds "data:image/" = true)
    (hm : matchDataUrl ds = none) :
    imagePaintFromNode env iu (some ds) sm s = Except.ok (none, s)
    ∧ (renderNode env (DesignNode.image b iu (some ds) sm cr stroke sw) pid
        pax pay pw ph pref s).map (fun s2 => s2.objects.map (fun o => o.fills)) =
      Except.ok (s.objects.map (fun o => o.fills)
        ++ [[Paint.solidP 0.9 0.9 0.9 (some 1)]])
    ∧ (renderNode env (DesignNode.image b iu (some ds) sm cr stroke sw) pid
        pax pay pw ph pref s).map (fun s2 => s2.attachments) =
      Except.ok (s.attachments ++ [(pid, s.nextId)])
    ∧ (∀ rest s2, renderNode env (DesignNode.image b iu (some ds) sm cr stroke
        sw) pid pax pay pw ph pref s = Except.ok s2 →
        renderNodes env ((DesignNode.image b iu (some ds) sm cr stroke sw)
          :: rest) pid pax pay pw ph pref s =
        renderNodes env rest pid pax pay pw ph pref s2) := by
  have htr := strTruthy_of_starts ds hd
  have hp0 : ∀ st : RState, imagePaintFromNode env iu (some ds) sm st =
      Except.ok (none, st) := by
    intro st
    simp [imagePaintFromNode, htr, hm]
  refine ⟨hp0 s, ?_, ?_, ?_⟩
  · simp [renderNode, hp0, attachChild, pushObj, freshId, emitEv, Except.map]
  · simp [renderNode, hp0, attachChild, pushObj, freshId, emitEv, Except.map]
  · intro rest s2 h
    simp [renderNodes, h]

/-- C10 witness: the theorem at the prefix-only data URL "data:image/png",
and at a data URL whose base64 payload contains the line separator U+2028,
which the dot of the source regular expression does not match. -/
theorem C10_witness :
    imagePaintFromNode ⟨fun _ => FetchResult.httpError, fun _ => none,
        fun _ _ => true, 0, 0⟩ none (some "data:image/png") none {} =
      Except.ok (none, ({} : RState))
    ∧ imagePaintFromNode ⟨fun _ => FetchResult.httpError, fun _ => none,
        fun _ _ => true, 0, 0⟩ none (some "data:image/png;base64,QUJ\u2028D")
        none {} = Except.ok (none, ({} : RState)) :=
  ⟨(C10_bad_dataurl ⟨fun _ => FetchResult.httpError, fun _ => none,
      fun _ _ => true, 0, 0⟩ ⟨none, 1, 2, 3, 4, none⟩ none "data:image/png" none
      none none none 0 0 0 100 100 CoordMode.relative {} (by decide)
      (by decide)).1,
   (C10_bad_dataurl ⟨fun _ => FetchResult.httpError, fun _ => none,
      fun _ _ => true, 0, 0⟩ ⟨none, 1, 2, 3, 4, none⟩ none
      "data:image/png;base64,QUJ\u2028D" none
      none none none 0 0 0 100 100 CoordMode.relative {} (by decide)
      (by decide)).1⟩

/-- C5 (amended): a remote image fetch that completes with a non-OK
response yields no paint, the node degrades to the neutral gray placeholder
fill, and the walk continues past the node; but a fetch that rejects at the
network level propagates out of `renderNode` and aborts the walk, since the
source awaits the fetch with no handler. -/
theorem C5_fetch_fallback (env : Env) (b : NodeBase) (url : String)
    (sm : Option ScaleMode) (cr : Option ℚ) (stroke : Option RGBA)
    (sw : Option ℚ) (pid : Nat) (pax pay pw ph : ℚ) (pref : CoordMode)
    (s : RState) (hurl : url ≠ "") :
    (env.fetchO url = FetchResult.httpError →
      imagePaintFromNode env (some url) none sm s =
        Except.ok (none, emitEv s (Ev.fetched url))
      ∧ (renderNode env (DesignNode.image b (some url) none sm cr stroke sw)
          pid pax pay pw ph pref s).map
          (fun s2 => s2.objects.map (fun o => o.fills)) =
        Except.ok (s.objects.map (fun o => o.fills)
          ++ [[Paint.solidP 0.9 0.9 0.9 (some 1)]])
      ∧ (renderNode env (DesignNode.image b (some url) none sm cr stroke sw)
          pid pax pay pw ph pref s).map (fun s2 => s2.attachments) =
        Except.ok (s.attachments ++ [(pid, s.nextId)])
      ∧ (∀ rest s2, renderNode env (DesignNode.image b (some url) none sm cr
          stroke sw) pid pax pay pw ph pref s = Except.ok s2 →
          renderNodes env ((DesignNode.image b (some url) none sm cr stroke sw)
            :: rest) pid pax pay pw ph pref s =
          renderNodes env rest pid pax pay pw ph pref s2))
    ∧ (env.fetchO url = FetchResult.networkError →
      renderNode env (DesignNode.image b (some url) none sm cr stroke sw) pid
        pax pay pw ph pref s = Except.error (RErr.fetchErr url)) := by
  constructor
  · intro hfetch
    have hp0 : ∀ st : RState, imagePaintFromNode env (some url) none sm st =
        Except.ok (none, emitEv st (Ev.fetched url)) := by
      intro st
      simp [imagePaintFromNode, strTruthy, hurl, hfetch]
    refine ⟨hp0 s, ?_, ?_, ?_⟩
    · simp [renderNode, hp0, attachChild, pushObj, freshId, emitEv, Except.map]
    · simp [renderNode, hp0, attachChild, pushObj, freshId, emitEv, Except.map]
    · intro rest s2 h
      simp [renderNodes, h]
  · intro hfetch
    simp [renderNode, imagePaintFromNode, strTruthy, hurl, hfetch]

/-- C5 witness: the amended theorem at a concrete non-OK fetch. -/
theorem C5_witness :
    imagePaintFromNode ⟨fun _ => FetchResult.httpError, fun _ => none,
        fun _ _ => true, 0, 0⟩ (some "http://img") none none {} =
      Except.ok (none, emitEv {} (Ev.fetched "http://img")) :=
  ((C5_fetch_fallback ⟨fun _ => FetchResult.httpError, fun _ => none,
      fun _ _ => true, 0, 0⟩ ⟨none, 1, 2, 3, 4, none⟩ "http://img" none none
      none none 0 0 0 100 100 CoordMode.relative {} (by decide)).1 rfl).1

/-- The two-node spec whose first node is an image with a remote source. -/
def c5spec : DesignSpec :=
  ⟨⟨"C", 100, 100⟩,
    [DesignNode.image ⟨none, 0, 0, 10, 10, none⟩ (some "http://img") none none
      none none none,
     DesignNode.rect ⟨none, 20, 20, 10, 10, none⟩ none none none none]⟩

/-- C5 counterexample: with a fetch that rejects at the network level, the
whole render aborts at the image node — the following sibling is never
instantiated — contradicting the claim that every failed fetch degrades to
a placeholder and never aborts the rest of the walk. -/
theorem C5_counterexample :
    renderToFigma ⟨fun _ => FetchResult.networkError, fun _ => none,
        fun _ _ => true, 0, 0⟩ c5spec none =
      Except.error (RErr.fetchErr "http://img") := by
  simp [c5spec, renderToFigma, normalizeScreenshot, renderNodes, renderNode,
    imagePaintFromNode, strTruthy, freshId, emitEv, pushObj, attachChild]

/-! ## Claim C8: document-order instantiation -/

mutual

/-- Number of nodes in a subtree (each node instantiates one canvas
object). -/
def countNodes : DesignNode → Nat
  | DesignNode.frame _ _ _ _ _ _ _ _ cs => 1 + countList cs
  | _ => 1

/-- Number of nodes in a forest. -/
def countList : List DesignNode → Nat
  | [] => 0
  | c :: cs => countNodes c + countList cs

end

/-- The canvas-object kind a node instantiates (image nodes become
rectangles). -/
def kindOf : DesignNode → ObjKind
  | DesignNode.rect _ _ _ _ _ => ObjKind.rectO
  | DesignNode.text _ _ _ _ _ _ _ => ObjKind.textO
  | DesignNode.frame _ _ _ _ _ _ _ _ _ => ObjKind.frameO
  | DesignNode.ellipse _ _ _ _ => ObjKind.ellipseO
  | DesignNode.image _ _ _ _ _ _ _ => ObjKind.rectO

theorem countNodes_pos (c : DesignNode) : 1 ≤ countNodes c := by
  cases c <;> simp [countNodes]

theorem countList_eq_zero (cs : List DesignNode) (h : countList cs = 0) :
    cs = [] := by
  cases cs with
  | nil => rfl
  | cons c rest =>
    exfalso
    have := countNodes_pos c
    simp [countList] at h
    omega

theorem loadFont_state (env : Env) (fam sty : String) (s1 s2 : RState)
    (h : loadFont env fam sty s1 = Except.ok s2) :
    s2.nextId = s1.nextId ∧ s2.objects = s1.objects
    ∧ s2.attachments = s1.attachments
    ∧ (∃ mid, s2.events = s1.events ++ mid)
    ∧ s2.pageChildren = s1.pageChildren ∧ s2.selection = s1.selection := by
  unfold loadFont at h
  by_cases hf : env.fontOk fam sty = true
  · simp only [hf, if_true] at h
    by_cases hk : s1.fontCache.contains (fam ++ "::" ++ sty) = true
    · simp only [hk, if_true] at h
      injection h with h
      subst h
      exact ⟨rfl, rfl, rfl, ⟨[], by simp⟩, rfl, rfl⟩
    · simp only [hk] at h
      simp only [if_false, Bool.false_eq_true, if_neg] at h
      injection h with h
      subst h
      exact ⟨rfl, rfl, rfl, ⟨[Ev.fontLoaded fam sty], by simp⟩, rfl, rfl⟩
  · simp [hf] at h

theorem imagePaint_state (env : Env) (iu idu : Option String)
    (sm : Option ScaleMode) (st : RState) (pr : Option Paint × RState)
    (h : imagePaintFromNode env iu idu sm st = Except.ok pr) :
    pr.2.nextId = st.nextId ∧ pr.2.objects = st.objects
    ∧ pr.2.attachments = st.attachments
    ∧ (∃ mid, pr.2.events = st.events ++ mid)
    ∧ pr.2.pageChildren = st.pageChildren ∧ pr.2.selection = st.selection := by
  unfold imagePaintFromNode at h
  by_cases h1 : strTruthy idu = true
  · simp only [h1, if_true] at h
    cases hm : matchDataUrl (idu.getD "") with
    | none =>
      rw [hm] at h
      injection h with h
      rw [← h]
      exact ⟨rfl, rfl, rfl, ⟨[], by simp⟩, rfl, rfl⟩
    | some m =>
      rw [hm] at h
      cases ha : env.atobO m.2 with
      | none => simp [ha] at h
      | some bytes =>
        simp only [ha] at h
        injection h with h
        rw [← h]
        exact ⟨rfl, rfl, rfl, ⟨[], by simp⟩, rfl, rfl⟩
  · simp only [h1] at h
    by_cases h2 : strTruthy iu = true
    · simp only [h2, if_true, Bool.false_eq_true, if_false] at h
      cases hf : env.fetchO (iu.getD "") with
      | ok bytes =>
        rw [hf] at h
        injection h with h
        rw [← h]
        exact ⟨rfl, rfl, rfl, ⟨[Ev.fetched (iu.getD "")], by simp [emitEv]⟩,
          rfl, rfl⟩
      | httpError =>
        rw [hf] at h
        injection h with h
        rw [← h]
        exact ⟨rfl, rfl, rfl, ⟨[Ev.fetched (iu.getD "")], by simp [emitEv]⟩,
          rfl, rfl⟩
      | networkError => rw [hf] at h; cases h
    · simp only [h2, Bool.false_eq_true, if_false] at h
      injection h with h
      rw [← h]
      exact ⟨rfl, rfl, rfl, ⟨[], by simp⟩, rfl, rfl⟩

theorem renderNode_leaf (env : Env) (c : DesignNode) (pid : Nat)
    (pax pay pw ph : ℚ) (pref : CoordMode) (s s2 : RState)
    (hc : countNodes c = 1)
    (h : renderNode env c pid pax pay pw ph pref s = Except.ok s2) :
    s2.nextId = s.nextId + 1
    ∧ s2.objects.map (fun o => o.id) = s.objects.map (fun o => o.id)
      ++ [s.nextId]
    ∧ s2.attachments = s.attachments ++ [(pid, s.nextId)]
    ∧ (∃ mid, s2.events = s.events ++ [Ev.created s.nextId (kindOf c)] ++ mid
      ++ [Ev.attached pid s.nextId])
    ∧ s2.pageChildren = s.pageChildren ∧ s2.selection = s.selection := by
  cases c with
  | rect b fill stroke sw cr =>
    simp only [renderNode] at h
    injection h with h
    rw [← h]
    refine ⟨rfl, by simp [attachChild, pushObj, freshId, emitEv],
      by simp [attachChild, pushObj, freshId, emitEv],
      ⟨[], by simp [attachChild, pushObj, freshId, emitEv, kindOf]⟩, rfl, rfl⟩
  | ellipse b fill stroke sw =>
    simp only [renderNode] at h
    injection h with h
    rw [← h]
    refine ⟨rfl, by simp [attachChild, pushObj, freshId, emitEv],
      by simp [attachChild, pushObj, freshId, emitEv],
      ⟨[], by simp [attachChild, pushObj, freshId, emitEv, kindOf]⟩, rfl, rfl⟩
  | text b t fam sty fsz fill al =>
    simp only [renderNode] at h
    cases hl : loadFont env (strOr fam "Inter") (strOr sty "Regular")
        (freshId s ObjKind.textO).2 with
    | error e => rw [hl] at h; cases h
    | ok sl =>
      rw [hl] at h
      injection h with h
      obtain ⟨hn, ho, ha, ⟨mid, he⟩, hp, hs⟩ :=
        loadFont_state env (strOr fam "Inter") (strOr sty "Regular") _ sl hl
      rw [← h]
      simp only [freshId, emitEv] at hn ho ha he hp hs
      refine ⟨by simp [attachChild, pushObj, freshId, emitEv, hn],
        by simp [attachChild, pushObj, freshId, emitEv, ho, hn],
        by simp [attachChild, pushObj, freshId, emitEv, ha, hn],
        ⟨mid, by simp [attachChild, pushObj, freshId, emitEv, he, hn, kindOf]⟩,
        by simp [attachChild, pushObj, freshId, emitEv, hp],
        by simp [attachChild, pushObj, freshId, emitEv, hs]⟩
  | image b iu idu sm cr stroke sw =>
    simp only [renderNode] at h
    cases hip : imagePaintFromNode env iu idu sm (freshId s ObjKind.rectO).2 with
    | error e => rw [hip] at h; cases h
    | ok pr =>
      rw [hip] at h
      injection h with h
      obtain ⟨hn, ho, ha, ⟨mid, he⟩, hp, hs⟩ :=
        imagePaint_state env iu idu sm _ pr hip
      rw [← h]
      simp only [freshId, emitEv] at hn ho ha he hp hs
      refine ⟨by simp [attachChild, pushObj, freshId, emitEv, hn],
        by simp [attachChild, pushObj, freshId, emitEv, ho, hn],
        by simp [attachChild, pushObj, freshId, emitEv, ha, hn],
        ⟨mid, by simp [attachChild, pushObj, freshId, emitEv, he, hn, kindOf]⟩,
        by simp [attachChild, pushObj, freshId, emitEv, hp],
        by simp [attachChild, pushObj, freshId, emitEv, hs]⟩
  | frame b lm pad isp fill stroke sw cr cs =>
    have hcs : cs = [] := by
      apply countList_eq_zero
      simp [countNodes] at hc
      omega
    subst hcs
    simp only [renderNode, renderNodes] at h
    injection h with h
    rw [← h]
    refine ⟨rfl, by simp [attachChild, pushObj, freshId, emitEv],
      by simp [attachChild, pushObj, freshId, emitEv],
      ⟨[], by simp [attachChild, pushObj, freshId, emitEv, kindOf]⟩, rfl, rfl⟩

theorem renderNode_frame2 (env : Env) (b : NodeBase) (lm : LayoutMode)
    (pad : Option FramePadding) (isp : Option ℚ) (fill stroke : Option RGBA)
    (sw cr : Option ℚ) (c1 c2 : DesignNode) (pid : Nat) (pax pay pw ph : ℚ)
    (pref : CoordMode) (s s2 : RState)
    (h1 : countNodes c1 = 1) (h2 : countNodes c2 = 1)
    (h : renderNode env (DesignNode.frame b lm pad isp fill stroke sw cr
      [c1, c2]) pid pax pay pw ph pref s = Except.ok s2) :
    s2.nextId = s.nextId + 3
    ∧ s2.objects.map (fun o => o.id) = s.objects.map (fun o => o.id)
      ++ [s.nextId, s.nextId + 1, s.nextId + 2]
    ∧ s2.attachments = s.attachments ++ [(pid, s.nextId),
      (s.nextId, s.nextId + 1), (s.nextId, s.nextId + 2)]
    ∧ (∃ mid4 mid5, s2.events = s.events
      ++ [Ev.created s.nextId ObjKind.frameO, Ev.attached pid s.nextId,
        Ev.created (s.nextId + 1) (kindOf c1)]
      ++ mid4 ++ [Ev.attached s.nextId (s.nextId + 1),
        Ev.created (s.nextId + 2) (kindOf c2)]
      ++ mid5 ++ [Ev.attached s.nextId (s.nextId + 2)])
    ∧ s2.pageChildren = s.pageChildren ∧ s2.selection = s.selection := by
  simp only [renderNode, renderNodes] at h
  split at h
  case h_1 => cases h
  case h_2 sD heqC =>
    split at h
    case h_1 => cases h
    case h_2 sE heqD =>
      injection h with h
      obtain ⟨cn, co, ca, ⟨mid4, ce⟩, cp, cs'⟩ :=
        renderNode_leaf env c1 _ _ _ _ _ _ _ sD h1 heqC
      obtain ⟨dn, do', da, ⟨mid5, de⟩, dp, ds'⟩ :=
        renderNode_leaf env c2 _ _ _ _ _ _ sD sE h2 heqD
      simp only [attachChild, pushObj, freshId, emitEv] at cn co ca ce cp cs'
      rw [← h]
      refine ⟨by omega, ?_, ?_, ⟨mid4, mid5, ?_⟩, ?_, ?_⟩
      · rw [do', co]
        simp [cn, add_assoc, freshId]
      · rw [da, ca]
        simp [cn, add_assoc, List.append_assoc, freshId]
      · rw [de, ce]
        simp [cn, add_assoc, kindOf, List.append_assoc, freshId]
      · rw [dp, cp]
      · rw [ds', cs']

/-- The spec example rect of the two-level tree. -/
def c8rect : DesignNode :=
  DesignNode.rect ⟨some "r", 10, 10, 100, 50, none⟩ none none none none

/-- The two-level spec: a rect and a nested frame with two children on an
800 by 600 canvas. -/
def c8spec (c1 c2 : DesignNode) : DesignSpec :=
  ⟨⟨"C", 800, 600⟩, [c8rect,
    DesignNode.frame ⟨some "f", 0, 60, 800, 540, none⟩ LayoutMode.NONE none
      none none none none none [c1, c2]]⟩

theorem renderNodes_c8chain (env : Env) (c1 c2 : DesignNode) (pid : Nat)
    (pax pay pw ph : ℚ) (pref : CoordMode) (s0 sOut : RState)
    (h1 : countNodes c1 = 1) (h2 : countNodes c2 = 1)
    (hr : renderNodes env [c8rect,
      DesignNode.frame ⟨some "f", 0, 60, 800, 540, none⟩ LayoutMode.NONE none
        none none none none none [c1, c2]] pid pax pay pw ph pref s0 =
      Except.ok sOut) :
    sOut.nextId = s0.nextId + 4
    ∧ sOut.objects.map (fun o => o.id) = s0.objects.map (fun o => o.id)
      ++ [s0.nextId, s0.nextId + 1, s0.nextId + 2, s0.nextId + 3]
    ∧ sOut.attachments = s0.attachments ++ [(pid, s0.nextId),
      (pid, s0.nextId + 1), (s0.nextId + 1, s0.nextId + 2),
      (s0.nextId + 1, s0.nextId + 3)]
    ∧ (∃ mid2 mid4 mid5, sOut.events = s0.events
      ++ [Ev.created s0.nextId ObjKind.rectO] ++ mid2
      ++ [Ev.attached pid s0.nextId, Ev.created (s0.nextId + 1) ObjKind.frameO,
        Ev.attached pid (s0.nextId + 1),
        Ev.created (s0.nextId + 2) (kindOf c1)] ++ mid4
      ++ [Ev.attached (s0.nextId + 1) (s0.nextId + 2),
        Ev.created (s0.nextId + 3) (kindOf c2)] ++ mid5
      ++ [Ev.attached (s0.nextId + 1) (s0.nextId + 3)])
    ∧ sOut.pageChildren = s0.pageChildren
    ∧ sOut.selection = s0.selection := by
  simp only [renderNodes] at hr
  split at hr
  case h_1 => cases hr
  case h_2 sA heqA =>
    split at hr
    case h_1 => cases hr
    case h_2 sB heqB =>
      injection hr with hr
      obtain ⟨an, ao, aa, ⟨mid2, ae⟩, ap, aSel⟩ :=
        renderNode_leaf env c8rect pid pax pay pw ph pref s0 sA rfl heqA
      obtain ⟨bn, bo, ba, ⟨mid4, mid5, be⟩, bp, bSel⟩ :=
        renderNode_frame2 env ⟨some "f", 0, 60, 800, 540, none⟩
          LayoutMode.NONE none none none none none none c1 c2 pid pax pay pw
          ph pref sA sB h1 h2 heqB
      subst hr
      refine ⟨by omega, ?_, ?_, ⟨mid2, mid4, mid5, ?_⟩, ?_, ?_⟩
      · rw [bo, ao]
        simp [an, add_assoc]
      · rw [ba, aa]
        simp [an, add_assoc, List.append_assoc]
      · rw [be, ae]
        simp [an, add_assoc, kindOf, c8rect, List.append_assoc]
      · rw [bp, ap]
      · rw [bSel, aSel]

/-- C8: a successful render of the two-level tree (one rect and one nested
frame with two leaf children) creates exactly six canvas objects — the root
container, the overlay, and one drawable object per spec node (ids 2 to 5,
four in all) — attaches children to every parent in document order, and the
event trace brackets each node between its creation and its attachment, the
nested frame being created and attached before either of its children is
processed. -/
theorem C8_two_level (env : Env) (c1 c2 : DesignNode) (st : RState)
    (h1 : countNodes c1 = 1) (h2 : countNodes c2 = 1)
    (hok : renderToFigma env (c8spec c1 c2) none = Except.ok st) :
    st.objects.map (fun o => o.id) = [0, 1, 2, 3, 4, 5]
    ∧ st.attachments = [(0, 1), (1, 2), (1, 3), (3, 4), (3, 5)]
    ∧ ∃ mid2 mid4 mid5, st.events =
      [Ev.created 0 ObjKind.frameO, Ev.created 1 ObjKind.frameO,
        Ev.attached 0 1, Ev.created 2 ObjKind.rectO] ++ mid2
      ++ [Ev.attached 1 2, Ev.created 3 ObjKind.frameO, Ev.attached 1 3,
        Ev.created 4 (kindOf c1)] ++ mid4
      ++ [Ev.attached 3 4, Ev.created 5 (kindOf c2)] ++ mid5
      ++ [Ev.attached 3 5] := by
  simp only [renderToFigma, normalizeScreenshot, c8spec] at hok
  split at hok
  case h_1 => cases hok
  case h_2 s3 heq =>
    injection hok with hok
    obtain ⟨rn, ro, ra, ⟨mid2, mid4, mid5, re⟩, rp, rSel⟩ :=
      renderNodes_c8chain env c1 c2 1 0 0 800 600 CoordMode.relative _ s3 h1
        h2 heq
    simp only [attachChild, pushObj, freshId, emitEv] at rn ro ra re rp rSel
    rw [← hok]
    refine ⟨?_, ?_, ⟨mid2, mid4, mid5, ?_⟩⟩
    · show List.map (fun o => o.id) s3.objects = [0, 1, 2, 3, 4, 5]
      rw [ro]
      norm_num
    · show s3.attachments = [(0, 1), (1, 2), (1, 3), (3, 4), (3, 5)]
      rw [ra]
      norm_num
    · show s3.events =
        [Ev.created 0 ObjKind.frameO, Ev.created 1 ObjKind.frameO,
          Ev.attached 0 1, Ev.created 2 ObjKind.rectO] ++ mid2
        ++ [Ev.attached 1 2, Ev.created 3 ObjKind.frameO, Ev.attached 1 3,
          Ev.created 4 (kindOf c1)] ++ mid4
        ++ [Ev.attached 3 4, Ev.created 5 (kindOf c2)] ++ mid5
        ++ [Ev.attached 3 5]
      rw [re]
      norm_num [List.append_assoc]

/-- A benign host environment for the concrete two-level render. -/
def c8env : Env :=
  ⟨fun _ => FetchResult.ok [1], fun _ => some [0], fun _ _ => true, 0, 0⟩

/-- The first leaf child of the concrete two-level render. -/
def c8c1 : DesignNode :=
  DesignNode.text ⟨none, 1, 1, 40, 12, none⟩ "hi" none none none none none

/-- The second leaf child of the concrete two-level render. -/
def c8c2 : DesignNode :=
  DesignNode.ellipse ⟨none, 5, 5, 20, 20, none⟩ none none none

/-- The host state produced by the concrete two-level render. -/
def c8st : RState :=
  { nextId := 6
    objects := [
      { id := 0
        kind := ObjKind.frameO
        name := "C"
        x := -400
        y := -300
        width := 800
        height := 600
        clipsContent := true },
      { id := 1
        kind := ObjKind.frameO
        name := "AI layers"
        x := 0
        y := 0
        width := 800
        height := 600 },
      { id := 2
        kind := ObjKind.rectO
        name := "r"
        x := 10
        y := 10
        width := 100
        height := 50
        fills := [Paint.solidP 1 1 1 (some 0)] },
      { id := 3
        kind := ObjKind.frameO
        name := "f"
        x := 0
        y := 60
        width := 800
        height := 540 },
      { id := 4
        kind := ObjKind.textO
        name := "Text"
        x := 1
        y := 1
        width := 40
        height := 12
        characters := some "hi"
        fontName := some ("Inter", "Regular") },
      { id := 5
        kind := ObjKind.ellipseO
        name := "Ellipse"
        x := 5
        y := 5
        width := 20
        height := 20
        fills := [Paint.solidP 1 1 1 (some 0)] }]
    attachments := [(0, 1), (1, 2), (1, 3), (3, 4), (3, 5)]
    events := [Ev.created 0 ObjKind.frameO, Ev.created 1 ObjKind.frameO,
      Ev.attached 0 1, Ev.created 2 ObjKind.rectO, Ev.attached 1 2,
      Ev.created 3 ObjKind.frameO, Ev.attached 1 3,
      Ev.created 4 ObjKind.textO, Ev.fontLoaded "Inter" "Regular",
      Ev.attached 3 4, Ev.created 5 ObjKind.ellipseO, Ev.attached 3 5]
    fontCache := ["Inter::Regular"]
    pageChildren := [0]
    selection := [0] }

theorem c8render_eval :
    renderToFigma c8env (c8spec c8c1 c8c2) none = Except.ok c8st := by
  norm_num [renderToFigma, normalizeScreenshot, c8spec, c8rect, c8env, c8c1,
    c8c2, c8st, renderNodes, renderNode, chooseLocalPosition, fitScore,
    detectCoordinateMode, detectScores, inferPillRadius, loadFont, strOr,
    fillsOrTransparent, fillsOrEmpty, strokePaints, strokeWeightOf,
    fontSizeSet, paddingSet, imagePaintFromNode, strTruthy, solid, freshId,
    emitEv, pushObj, attachChild, DesignNode.base, List.foldl]
  decide

/-- C8 witness: the theorem at a concrete two-level tree (text and ellipse
leaves) under a benign host environment. -/
theorem C8_witness :
    countNodes c8c1 = 1 ∧ countNodes c8c2 = 1
    ∧ renderToFigma c8env (c8spec c8c1 c8c2) none = Except.ok c8st
    ∧ c8st.objects.map (fun o => o.id) = [0, 1, 2, 3, 4, 5]
    ∧ c8st.attachments = [(0, 1), (1, 2), (1, 3), (3, 4), (3, 5)] :=
  ⟨rfl, rfl, c8render_eval,
    (C8_two_level c8env c8c1 c8c2 c8st rfl rfl c8render_eval).1,
    (C8_two_level c8env c8c1 c8c2 c8st rfl rfl c8render_eval).2.1⟩

/-! ## Claims C6 and C7: what validation establishes

Inversion lemmas: whatever a field schema accepts satisfies the
corresponding Boolean invariant. -/

theorem numMin_ok (lo : ℚ) (v : JVal) (q : ℚ) (h : numMin lo v = some q) :
    lo ≤ q := by
  simp only [numMin, Option.bind_eq_bind, Option.bind_eq_some,
    Option.ite_none_right_eq_some, Option.some.injEq] at h
  obtain ⟨a, _, h1, h2⟩ := h
  exact h2 ▸ h1

theorem numPos_ok (v : JVal) (q : ℚ) (h : numPos v = some q) : 0 < q := by
  simp only [numPos, Option.bind_eq_bind, Option.bind_eq_some,
    Option.ite_none_right_eq_some, Option.some.injEq] at h
  obtain ⟨a, _, h1, h2⟩ := h
  exact h2 ▸ h1

theorem numUnit_ok (v : JVal) (q : ℚ) (h : numUnit v = some q) :
    0 ≤ q ∧ q ≤ 1 := by
  simp only [numUnit, Option.bind_eq_bind, Option.bind_eq_some,
    Option.ite_none_right_eq_some, Option.some.injEq] at h
  obtain ⟨a, _, h1, h2⟩ := h
  exact h2 ▸ h1

theorem strMin1_ok (v : JVal) (s : String) (h : strMin1 v = some s) :
    1 ≤ s.length := by
  simp only [strMin1, Option.bind_eq_bind, Option.bind_eq_some,
    Option.ite_none_right_eq_some, Option.some.injEq] at h
  obtain ⟨a, _, h1, h2⟩ := h
  exact h2 ▸ h1

theorem strDataUrl_ok (v : JVal) (s : String) (h : strDataUrl v = some s) :
    jStartsWith s "data:image/" = true := by
  simp only [strDataUrl, Option.bind_eq_bind, Option.bind_eq_some,
    Option.ite_none_right_eq_some, Option.some.injEq] at h
  obtain ⟨a, _, h1, h2⟩ := h
  exact h2 ▸ h1

theorem reqField_ok (fields : List (String × JVal)) (key : String)
    (dec : JVal → Option α) (p : α → Prop)
    (hdec : ∀ v a, dec v = some a → p a) (a : α)
    (h : reqField fields key dec = some a) : p a := by
  simp only [reqField, Option.bind_eq_some] at h
  obtain ⟨v, _, hv⟩ := h
  exact hdec v a hv

theorem optField_ok (fields : List (String × JVal)) (key : String)
    (dec : JVal → Option α) (p : α → Bool)
    (hdec : ∀ v a, dec v = some a → p a = true) (o : Option α)
    (h : optField fields key dec = some o) : optOk p o = true := by
  cases hl : lookupField fields key with
  | none =>
    simp only [optField, hl] at h
    injection h with h
    subst h
    rfl
  | some v =>
    simp only [optField, hl] at h
    cases hd : dec v with
    | none => simp only [hd, Option.map_none'] at h; exact Option.noConfusion h
    | some a =>
      simp only [hd, Option.map_some'] at h
      injection h with h
      subst h
      exact hdec v a hd

theorem parseColor_ok (v : JVal) (c : RGBA) (h : parseColor v = some c) :
    colorOkB c = true := by
  cases v with
  | obj cf =>
    simp only [parseColor, Option.bind_eq_bind, Option.bind_eq_some,
      Option.some.injEq] at h
    obtain ⟨r, hr, g, hg, b, hb, a, ha, hmk⟩ := h
    subst hmk
    have h1 := reqField_ok cf "r" numUnit (fun q => 0 ≤ q ∧ q ≤ 1) numUnit_ok r hr
    have h2 := reqField_ok cf "g" numUnit (fun q => 0 ≤ q ∧ q ≤ 1) numUnit_ok g hg
    have h3 := reqField_ok cf "b" numUnit (fun q => 0 ≤ q ∧ q ≤ 1) numUnit_ok b hb
    have h4 := optField_ok cf "a" numUnit (fun q => decide (0 ≤ q ∧ q ≤ 1))
      (fun v a hva => decide_eq_true (numUnit_ok v a hva)) a ha
    simp only [colorOkB, Bool.and_eq_true, decide_eq_true_eq]
    exact ⟨⟨⟨h1, h2⟩, h3⟩, h4⟩
  | num q => simp [parseColor] at h
  | str s => simp [parseColor] at h
  | bool b => simp [parseColor] at h
  | null => simp [parseColor] at h
  | arr xs => simp [parseColor] at h

theorem parsePadding_ok (v : JVal) (p : FramePadding)
    (h : parsePadding v = some p) : paddingOkB p = true := by
  cases v with
  | obj pf =>
    simp only [parsePadding, Option.bind_eq_bind, Option.bind_eq_some,
      Option.some.injEq] at h
    obtain ⟨t, ht, r, hr, bt, hbt, l, hl, hmk⟩ := h
    subst hmk
    have h1 := optField_ok pf "top" (numMin 0) (fun q => decide (0 ≤ q))
      (fun v a hva => decide_eq_true (numMin_ok 0 v a hva)) t ht
    have h2 := optField_ok pf "right" (numMin 0) (fun q => decide (0 ≤ q))
      (fun v a hva => decide_eq_true (numMin_ok 0 v a hva)) r hr
    have h3 := optField_ok pf "bottom" (numMin 0) (fun q => decide (0 ≤ q))
      (fun v a hva => decide_eq_true (numMin_ok 0 v a hva)) bt hbt
    have h4 := optField_ok pf "left" (numMin 0) (fun q => decide (0 ≤ q))
      (fun v a hva => decide_eq_true (numMin_ok 0 v a hva)) l hl
    simp only [paddingOkB, Bool.and_eq_true]
    exact ⟨⟨⟨h1, h2⟩, h3⟩, h4⟩
  | num q => simp [parsePadding] at h
  | str s => simp [parsePadding] at h
  | bool b => simp [parsePadding] at h
  | null => simp [parsePadding] at h
  | arr xs => simp [parsePadding] at h

theorem parseBase_ok (fields : List (String × JVal)) (b : NodeBase)
    (h : parseBase fields = some b) : baseOkB b = true := by
  simp only [parseBase, Option.bind_eq_bind, Option.bind_eq_some,
    Option.some.injEq] at h
  obtain ⟨nm, hnm, x, hx, y, hy, w, hw, hgt, hhgt, op, hop, hmk⟩ := h
  subst hmk
  have h1 := reqField_ok fields "width" numPos (fun q => 0 < q) numPos_ok w hw
  have h2 := reqField_ok fields "height" numPos (fun q => 0 < q) numPos_ok hgt hhgt
  have h3 := optField_ok fields "opacity" numUnit (fun q => decide (0 ≤ q ∧ q ≤ 1))
    (fun v a hva => decide_eq_true (numUnit_ok v a hva)) op hop
  simp only [baseOkB, Bool.and_eq_true, decide_eq_true_eq]
  exact ⟨⟨h1, h2⟩, h3⟩

theorem parseRect_ok (fields : List (String × JVal)) (s : DesignNode)
    (h : parseRect fields = some s) : nodeOkB s = true := by
  simp only [parseRect, Option.bind_eq_bind, Option.bind_eq_some,
    Option.some.injEq] at h
  obtain ⟨u, hu, b, hb, fl, hfl, st, hst, sw, hsw, cr, hcr, hmk⟩ := h
  subst hmk
  simp only [nodeOkB, Bool.and_eq_true]
  exact ⟨⟨⟨⟨parseBase_ok fields b hb,
    optField_ok fields "fill" parseColor colorOkB parseColor_ok fl hfl⟩,
    optField_ok fields "stroke" parseColor colorOkB parseColor_ok st hst⟩,
    optField_ok fields "strokeWidth" (numMin 0) (fun q => decide (0 ≤ q))
      (fun v a hva => decide_eq_true (numMin_ok 0 v a hva)) sw hsw⟩,
    optField_ok fields "cornerRadius" (numMin 0) (fun q => decide (0 ≤ q))
      (fun v a hva => decide_eq_true (numMin_ok 0 v a hva)) cr hcr⟩

theorem parseText_ok (fields : List (String × JVal)) (s : DesignNode)
    (h : parseText fields = some s) : nodeOkB s = true := by
  simp only [parseText, Option.bind_eq_bind, Option.bind_eq_some,
    Option.some.injEq] at h
  obtain ⟨u, hu, b, hb, t, htx, fam, hfam, sty, hsty, fsz, hfsz, fl, hfl,
    al, hal, hmk⟩ := h
  subst hmk
  simp only [nodeOkB, Bool.and_eq_true]
  exact ⟨⟨parseBase_ok fields b hb,
    optField_ok fields "fontSize" numPos (fun q => decide (0 < q))
      (fun v a hva => decide_eq_true (numPos_ok v a hva)) fsz hfsz⟩,
    optField_ok fields "fill" parseColor colorOkB parseColor_ok fl hfl⟩

theorem parseEllipse_ok (fields : List (String × JVal)) (s : DesignNode)
    (h : parseEllipse fields = some s) : nodeOkB s = true := by
  simp only [parseEllipse, Option.bind_eq_bind, Option.bind_eq_some,
    Option.some.injEq] at h
  obtain ⟨u, hu, b, hb, fl, hfl, st, hst, sw, hsw, hmk⟩ := h
  subst hmk
  simp only [nodeOkB, Bool.and_eq_true]
  exact ⟨⟨⟨parseBase_ok fields b hb,
    optField_ok fields "fill" parseColor colorOkB parseColor_ok fl hfl⟩,
    optField_ok fields "stroke" parseColor colorOkB parseColor_ok st hst⟩,
    optField_ok fields "strokeWidth" (numMin 0) (fun q => decide (0 ≤ q))
      (fun v a hva => decide_eq_true (numMin_ok 0 v a hva)) sw hsw⟩

theorem parseImage_ok (fields : List (String × JVal)) (s : DesignNode)
    (h : parseImage fields = some s) : nodeOkB s = true := by
  simp only [parseImage, Option.bind_eq_bind, Option.bind_eq_some,
    Option.ite_none_right_eq_some, Option.some.injEq] at h
  obtain ⟨u, hu, b, hb, iu, hiu, idu, hidu, sm, hsm, cr, hcr, st, hst,
    sw, hsw, hcond, hmk⟩ := h
  subst hmk
  simp only [nodeOkB, Bool.and_eq_true]
  exact ⟨⟨⟨⟨⟨⟨parseBase_ok fields b hb,
    optField_ok fields "imageUrl" strMin1 (fun s => decide (1 ≤ s.length))
      (fun v a hva => decide_eq_true (strMin1_ok v a hva)) iu hiu⟩,
    optField_ok fields "imageDataUrl" strDataUrl
      (fun s => jStartsWith s "data:image/") strDataUrl_ok idu hidu⟩,
    optField_ok fields "cornerRadius" (numMin 0) (fun q => decide (0 ≤ q))
      (fun v a hva => decide_eq_true (numMin_ok 0 v a hva)) cr hcr⟩,
    optField_ok fields "stroke" parseColor colorOkB parseColor_ok st hst⟩,
    optField_ok fields "strokeWidth" (numMin 0) (fun q => decide (0 ≤ q))
      (fun v a hva => decide_eq_true (numMin_ok 0 v a hva)) sw hsw⟩,
    hcond⟩

theorem parseFrame_ok (pc : List JVal → Option (List DesignNode))
    (fields : List (String × JVal)) (s : DesignNode)
    (hpc : ∀ xs cs, pc xs = some cs → listOkB cs = true)
    (h : parseFrame pc fields = some s) : nodeOkB s = true := by
  simp only [parseFrame, Option.bind_eq_bind, Option.bind_eq_some,
    Option.some.injEq] at h
  obtain ⟨u, hu, b, hb, lm, hlm, pad, hpad, isp, hisp, fl, hfl, st, hst,
    sw, hsw, cr, hcr, xs, hxs, cs, hcs, hmk⟩ := h
  subst hmk
  simp only [nodeOkB, Bool.and_eq_true]
  exact ⟨⟨⟨⟨⟨⟨⟨parseBase_ok fields b hb,
    optField_ok fields "padding" parsePadding paddingOkB parsePadding_ok pad hpad⟩,
    optField_ok fields "itemSpacing" (numMin 0) (fun q => decide (0 ≤ q))
      (fun v a hva => decide_eq_true (numMin_ok 0 v a hva)) isp hisp⟩,
    optField_ok fields "fill" parseColor colorOkB parseColor_ok fl hfl⟩,
    optField_ok fields "stroke" parseColor colorOkB parseColor_ok st hst⟩,
    optField_ok fields "strokeWidth" (numMin 0) (fun q => decide (0 ≤ q))
      (fun v a hva => decide_eq_true (numMin_ok 0 v a hva)) sw hsw⟩,
    optField_ok fields "cornerRadius" (numMin 0) (fun q => decide (0 ≤ q))
      (fun v a hva => decide_eq_true (numMin_ok 0 v a hva)) cr hcr⟩,
    hpc xs cs hcs⟩

theorem jalt_eq_some (a : Option α) (b : Unit → Option α) (v : α)
    (h : jalt a b = some v) : a = some v ∨ b () = some v := by
  cases a with
  | some w => exact Or.inl h
  | none => exact Or.inr h

theorem parseListAux_ok (p : JVal → Option DesignNode)
    (hp : ∀ v c, p v = some c → nodeOkB c = true) :
    ∀ (xs : List JVal) (cs : List DesignNode),
      parseListAux p xs = some cs → listOkB cs = true := by
  intro xs
  induction xs with
  | nil =>
    intro cs h
    simp only [parseListAux, Option.some.injEq] at h
    subst h
    rfl
  | cons x xs ih =>
    intro cs h
    simp only [parseListAux, Option.bind_eq_bind, Option.bind_eq_some,
      Option.some.injEq] at h
    obtain ⟨c, hc, cs1, hcs1, hmk⟩ := h
    subst hmk
    simp [listOkB, hp x c hc, ih cs1 hcs1]

/-- Everything the node validator accepts satisfies the full validator
invariant, at any fuel. -/
theorem parseNodeF_ok (fuel : Nat) :
    ∀ (v : JVal) (s : DesignNode),
      parseNodeF fuel v = some s → nodeOkB s = true := by
  induction fuel with
  | zero => intro v s h; exact Option.noConfusion h
  | succ n ih =>
    intro v s h
    cases v with
    | num q => simp [parseNodeF] at h
    | str s1 => simp [parseNodeF] at h
    | bool b1 => simp [parseNodeF] at h
    | null => simp [parseNodeF] at h
    | arr xs => simp [parseNodeF] at h
    | obj fields =>
      simp only [parseNodeF] at h
      rcases jalt_eq_some _ _ _ h with h1 | h2
      · exact parseRect_ok fields s h1
      · rcases jalt_eq_some _ _ _ h2 with h1 | h2
        · exact parseText_ok fields s h1
        · rcases jalt_eq_some _ _ _ h2 with h1 | h2
          · exact parseFrame_ok _ fields s (parseListAux_ok _ ih) h1
          · rcases jalt_eq_some _ _ _ h2 with h1 | h2
            · exact parseEllipse_ok fields s h1
            · exact parseImage_ok fields s h2

mutual

/-- The validator invariant implies the claim-level invariant. -/
theorem nodeOk_claimInv : ∀ (s : DesignNode),
    nodeOkB s = true → claimInvB s = true
  | DesignNode.rect b fl st sw cr, h => by
    simp only [nodeOkB, Bool.and_eq_true] at h
    obtain ⟨⟨⟨⟨h1, h2⟩, h3⟩, h4⟩, h5⟩ := h
    simp [claimInvB, h1, h2, h3]
  | DesignNode.text b t fam sty fsz fl al, h => by
    simp only [nodeOkB, Bool.and_eq_true] at h
    obtain ⟨⟨h1, h2⟩, h3⟩ := h
    simp [claimInvB, h1, h3]
  | DesignNode.frame b lm pad isp fl st sw cr cs, h => by
    simp only [nodeOkB, Bool.and_eq_true] at h
    obtain ⟨⟨⟨⟨⟨⟨⟨h1, h2⟩, h3⟩, h4⟩, h5⟩, h6⟩, h7⟩, h8⟩ := h
    simp [claimInvB, h1, h4, h5, listOk_claimInv cs h8]
  | DesignNode.ellipse b fl st sw, h => by
    simp only [nodeOkB, Bool.and_eq_true] at h
    obtain ⟨⟨⟨h1, h2⟩, h3⟩, h4⟩ := h
    simp [claimInvB, h1, h2, h3]
  | DesignNode.image b iu idu sm cr st sw, h => by
    simp only [nodeOkB, Bool.and_eq_true] at h
    obtain ⟨⟨⟨⟨⟨⟨h1, h2⟩, h3⟩, h4⟩, h5⟩, h6⟩, h7⟩ := h
    simp [claimInvB, h1, h5]

/-- The list-level validator invariant implies the claim-level one. -/
theorem listOk_claimInv : ∀ (cs : List DesignNode),
    listOkB cs = true → claimInvL cs = true
  | [], _ => rfl
  | c :: cs, h => by
    simp only [listOkB, Bool.and_eq_true] at h
    simp [claimInvL, nodeOk_claimInv c h.1, listOk_claimInv cs h.2]

end

theorem parseCanvas_ok (v : JVal) (c : Canvas) (h : parseCanvas v = some c) :
    0 < c.width ∧ 0 < c.height := by
  cases v with
  | obj cf =>
    simp only [parseCanvas, Option.bind_eq_bind, Option.bind_eq_some,
      Option.some.injEq] at h
    obtain ⟨nm, hnm, w, hw, hgt, hhgt, hmk⟩ := h
    subst hmk
    exact ⟨reqField_ok cf "width" numPos (fun q => 0 < q) numPos_ok w hw,
      reqField_ok cf "height" numPos (fun q => 0 < q) numPos_ok hgt hhgt⟩
  | num q => simp [parseCanvas] at h
  | str s => simp [parseCanvas] at h
  | bool b => simp [parseCanvas] at h
  | null => simp [parseCanvas] at h
  | arr xs => simp [parseCanvas] at h

/-- Everything the spec validator accepts has a positive canvas and valid
nodes. -/
theorem parseSpec_ok (v : JVal) (sp : DesignSpec) (h : parseSpec v = some sp) :
    (0 < sp.canvas.width ∧ 0 < sp.canvas.height) ∧ listOkB sp.nodes = true := by
  unfold parseSpec at h
  cases v with
  | obj fields =>
    simp only [parseSpecAux, Option.bind_eq_bind, Option.bind_eq_some,
      Option.some.injEq] at h
    obtain ⟨cv, hcv, xs, hxs, nds, hnds, hmk⟩ := h
    subst hmk
    exact ⟨reqField_ok fields "canvas" parseCanvas
        (fun c => 0 < c.width ∧ 0 < c.height) parseCanvas_ok cv hcv,
      parseListAux_ok _ (parseNodeF_ok _) xs nds hnds⟩
  | num q => simp [parseSpecAux] at h
  | str s => simp [parseSpecAux] at h
  | bool b => simp [parseSpecAux] at h
  | null => simp [parseSpecAux] at h
  | arr ys => simp [parseSpecAux] at h

theorem obind_none (o : Option α) :
    (o.bind fun _ => (none : Option β)) = none := by
  cases o <;> rfl

theorem obind_none2 (o : Option α) :
    (o >>= fun _ => (none : Option β)) = none := by
  cases o <;> rfl

theorem parseBase_none_width (fields : List (String × JVal)) (w : ℚ)
    (hl : lookupField fields "width" = some (JVal.num w)) (hw : ¬ 0 < w) :
    parseBase fields = none := by
  simp [parseBase, reqField, hl, numPos, asNumber, hw, obind_none, obind_none2]

theorem parseBase_none_height (fields : List (String × JVal)) (h0 : ℚ)
    (hl : lookupField fields "height" = some (JVal.num h0)) (hh : ¬ 0 < h0) :
    parseBase fields = none := by
  simp [parseBase, reqField, hl, numPos, asNumber, hh, obind_none, obind_none2]

theorem parseRect_none_base (fields : List (String × JVal))
    (hb : parseBase fields = none) : parseRect fields = none := by
  simp [parseRect, hb, obind_none, obind_none2]

theorem parseText_none_base (fields : List (String × JVal))
    (hb : parseBase fields = none) : parseText fields = none := by
  simp [parseText, hb, obind_none, obind_none2]

theorem parseFrame_none_base (pc : List JVal → Option (List DesignNode))
    (fields : List (String × JVal))
    (hb : parseBase fields = none) : parseFrame pc fields = none := by
  simp [parseFrame, hb, obind_none, obind_none2]

theorem parseEllipse_none_base (fields : List (String × JVal))
    (hb : parseBase fields = none) : parseEllipse fields = none := by
  simp [parseEllipse, hb, obind_none, obind_none2]

theorem parseImage_none_base (fields : List (String × JVal))
    (hb : parseBase fields = none) : parseImage fields = none := by
  simp [parseImage, hb, obind_none, obind_none2]

/-- A raw object whose shared base fields fail the base schema is rejected
by every member of the node union. -/
theorem parseNodeF_none_base (fuel : Nat) (fields : List (String × JVal))
    (hb : parseBase fields = none) :
    parseNodeF fuel (JVal.obj fields) = none := by
  cases fuel with
  | zero => rfl
  | succ n =>
    simp [parseNodeF, jalt_none, parseRect_none_base fields hb,
      parseText_none_base fields hb, parseFrame_none_base _ fields hb,
      parseEllipse_none_base fields hb, parseImage_none_base fields hb]

/-- Claim C7: after validation, every node of the resulting tree satisfies
the invariants.  The union discriminant being one of the five tags is the
typing of `DesignNode` itself (a closed five-variant sum), and all geometry
is finite by construction of the number domain ℚ (no NaN or infinities);
the remaining content is: (1) every validated node satisfies `claimInvB` —
strictly positive width and height and every color channel and opacity in
[0,1], recursively through frame children; (2) the same holds for every
node of a validated spec, whose canvas dimensions are also positive;
(3)–(4) validation rejects outright any raw node object carrying a
non-positive width or height. -/
theorem C7_validator_invariants :
    (∀ v s, parseDesignNode v = some s → claimInvB s = true)
    ∧ (∀ v sp, parseSpec v = some sp →
        (0 < sp.canvas.width ∧ 0 < sp.canvas.height) ∧ claimInvL sp.nodes = true)
    ∧ (∀ fields w, lookupField fields "width" = some (JVal.num w) → w ≤ 0 →
        parseDesignNode (JVal.obj fields) = none)
    ∧ (∀ fields h0, lookupField fields "height" = some (JVal.num h0) → h0 ≤ 0 →
        parseDesignNode (JVal.obj fields) = none) := by
  refine ⟨?_, ?_, ?_, ?_⟩
  · intro v s h
    exact nodeOk_claimInv s (parseNodeF_ok _ v s h)
  · intro v sp h
    obtain ⟨hc, hl⟩ := parseSpec_ok v sp h
    exact ⟨hc, listOk_claimInv _ hl⟩
  · intro fields w hl hw
    exact parseNodeF_none_base _ fields
      (parseBase_none_width fields w hl (not_lt.mpr hw))
  · intro fields h0 hl hh
    exact parseNodeF_none_base _ fields
      (parseBase_none_height fields h0 hl (not_lt.mpr hh))

/-- A concrete well-formed raw rect node for the C7 witness. -/
def c7raw : JVal := JVal.obj [("type", JVal.str "rect"),
  ("x", JVal.num 1), ("y", JVal.num 2),
  ("width", JVal.num 10), ("height", JVal.num 20),
  ("opacity", JVal.num 1),
  ("fill", JVal.obj [("r", JVal.num 1), ("g", JVal.num 0), ("b", JVal.num 0)])]

/-- The node `c7raw` validates to. -/
def c7node : DesignNode :=
  DesignNode.rect ⟨none, 1, 2, 10, 20, some 1⟩
    (some ⟨1, 0, 0, none⟩) none none none

/-- A raw rect node with a negative width, for the C7 witness. -/
def c7bad : List (String × JVal) := [("type", JVal.str "rect"),
  ("x", JVal.num 0), ("y", JVal.num 0),
  ("width", JVal.num (-5)), ("height", JVal.num 7)]

theorem C7_witness :
    claimInvB c7node = true
    ∧ parseDesignNode (JVal.obj c7bad) = none :=
  ⟨C7_validator_invariants.1 c7raw c7node (by rfl),
   C7_validator_invariants.2.2.1 c7bad (-5) (by rfl) (by norm_num)⟩

/-! ### Round-tripping an already-validated value (claim C6)

`encodeNode` is the raw shape of the validator's own output; the lemmas
below show the validator accepts it back and returns the same typed value. -/

theorem jalt_none_right (o : Option α) : jalt o (fun _ => none) = o := by
  cases o <;> rfl

theorem lookup_nil (key : String) :
    lookupField [] key = none := rfl

theorem lookup_cons_self (k : String) (v : JVal) (l : List (String × JVal)) :
    lookupField ((k, v) :: l) k = some v := by
  simp [lookupField]

theorem lookup_cons_ne (k key : String) (h : ¬ k = key) (v : JVal)
    (l : List (String × JVal)) :
    lookupField ((k, v) :: l) key = lookupField l key := by
  simp [lookupField, h]

theorem lookup_optEntry_append_ne (k key : String) (h : ¬ k = key)
    (o : Option JVal) (l : List (String × JVal)) :
    lookupField (optEntry k o ++ l) key = lookupField l key := by
  cases o <;> simp [optEntry, lookupField, h]

theorem lookup_optEntry_append_self (k : String) (o : Option JVal)
    (l : List (String × JVal)) (hl : lookupField l k = none) :
    lookupField (optEntry k o ++ l) k = o := by
  cases o <;> simp [optEntry, lookupField, hl]

theorem lookup_encodeBase_ne (b : NodeBase) (key : String)
    (l : List (String × JVal))
    (h1 : ¬ "name" = key) (h2 : ¬ "x" = key) (h3 : ¬ "y" = key)
    (h4 : ¬ "width" = key) (h5 : ¬ "height" = key) (h6 : ¬ "opacity" = key) :
    lookupField (encodeBase b ++ l) key = lookupField l key := by
  cases hn : Option.map JVal.str b.name <;>
    cases ho : Option.map JVal.num b.opacity <;>
      simp [encodeBase, hn, ho, optEntry, lookupField, h1, h2, h3, h4, h5, h6]

/-- The base schema accepts the encoding of any valid base back, whatever
well-behaved tail follows it. -/
theorem parseBase_encode (t : JVal) (b : NodeBase)
    (rest : List (String × JVal)) (hb : baseOkB b = true)
    (hn : lookupField rest "name" = none)
    (ho : lookupField rest "opacity" = none) :
    parseBase (("type", t) :: (encodeBase b ++ rest)) = some b := by
  obtain ⟨nm, bx, byy, bw, bh, bop⟩ := b
  simp only [baseOkB, Bool.and_eq_true, decide_eq_true_eq] at hb
  obtain ⟨⟨hw, hh⟩, hop⟩ := hb
  cases nm with
  | none =>
    cases bop with
    | none =>
      simp [parseBase, reqField, optField, encodeBase, optEntry, lookupField,
        asString, asNumber, numPos, numUnit, hn, ho, hw, hh]
    | some q =>
      simp only [optOk, decide_eq_true_eq] at hop
      simp [parseBase, reqField, optField, encodeBase, optEntry, lookupField,
        asString, asNumber, numPos, numUnit, hn, hw, hh, hop]
  | some s =>
    cases bop with
    | none =>
      simp [parseBase, reqField, optField, encodeBase, optEntry, lookupField,
        asString, asNumber, numPos, numUnit, ho, hw, hh]
    | some q =>
      simp only [optOk, decide_eq_true_eq] at hop
      simp [parseBase, reqField, optField, encodeBase, optEntry, lookupField,
        asString, asNumber, numPos, numUnit, hw, hh, hop]

/-- The color schema accepts the encoding of any valid color back. -/
theorem parseColor_encode (c : RGBA) (hc : colorOkB c = true) :
    parseColor (encodeColor c) = some c := by
  obtain ⟨r, g, b, a⟩ := c
  simp only [colorOkB, Bool.and_eq_true, decide_eq_true_eq] at hc
  obtain ⟨⟨⟨h1, h2⟩, h3⟩, h4⟩ := hc
  cases a with
  | none =>
    simp [encodeColor, parseColor, reqField, optField, optEntry, lookupField,
      numUnit, asNumber, h1, h2, h3]
  | some q =>
    simp only [optOk, decide_eq_true_eq] at h4
    simp [encodeColor, parseColor, reqField, optField, optEntry, lookupField,
      numUnit, asNumber, h1, h2, h3, h4]

theorem optField_of_map_color (fields : List (String × JVal)) (key : String)
    (o : Option RGBA) (h : lookupField fields key = Option.map encodeColor o)
    (hok : optOk colorOkB o = true) :
    optField fields key parseColor = some o := by
  cases o with
  | none => simp [optField, h]
  | some c =>
    simp only [optOk] at hok
    simp [optField, h, parseColor_encode c hok]

theorem optOk_ge (lo : ℚ) (o : Option ℚ)
    (h : optOk (fun q => decide (lo ≤ q)) o = true) :
    ∀ q, o = some q → lo ≤ q := by
  intro q hq
  subst hq
  simpa [optOk] using h

theorem optField_of_map_num_min (lo : ℚ) (fields : List (String × JVal))
    (key : String) (o : Option ℚ)
    (h : lookupField fields key = Option.map JVal.num o)
    (hok : optOk (fun q => decide (lo ≤ q)) o = true) :
    optField fields key (numMin lo) = some o :=
  optField_of_map_num_ge lo fields key o h (optOk_ge lo o hok)

theorem optField_of_map_num_pos (fields : List (String × JVal)) (key : String)
    (o : Option ℚ) (h : lookupField fields key = Option.map JVal.num o)
    (hok : optOk (fun q => decide (0 < q)) o = true) :
    optField fields key numPos = some o := by
  cases o with
  | none => simp [optField, h]
  | some q =>
    have hq : 0 < q := by simpa [optOk] using hok
    simp [optField, h, numPos, asNumber, hq]

theorem optField_of_map_str_min1 (fields : List (String × JVal)) (key : String)
    (o : Option String) (h : lookupField fields key = Option.map JVal.str o)
    (hok : optOk (fun s => decide (1 ≤ s.length)) o = true) :
    optField fields key strMin1 = some o := by
  cases o with
  | none => simp [optField, h]
  | some s =>
    have hs : 1 ≤ s.length := by simpa [optOk] using hok
    simp [optField, h, strMin1, asString, hs]

theorem optField_of_map_dataurl (fields : List (String × JVal)) (key : String)
    (o : Option String) (h : lookupField fields key = Option.map JVal.str o)
    (hok : optOk (fun s => jStartsWith s "data:image/") o = true) :
    optField fields key strDataUrl = some o := by
  cases o with
  | none => simp [optField, h]
  | some s =>
    have hs : jStartsWith s "data:image/" = true := by simpa [optOk] using hok
    simp [optField, h, strDataUrl, asString, hs]

theorem parseAlign_encode (a : Align) :
    parseAlign (JVal.str (alignStr a)) = some a := by
  cases a <;> simp [parseAlign, alignStr, asString]

theorem optField_of_map_align (fields : List (String × JVal)) (key : String)
    (o : Option Align)
    (h : lookupField fields key =
      Option.map (fun a => JVal.str (alignStr a)) o) :
    optField fields key parseAlign = some o := by
  cases o with
  | none => simp [optField, h]
  | some a => simp [optField, h, parseAlign_encode a]

theorem parseScaleMode_encode (m : ScaleMode) :
    parseScaleMode (JVal.str (scaleModeStr m)) = some m := by
  cases m <;> simp [parseScaleMode, scaleModeStr, asString]

theorem optField_of_map_scale (fields : List (String × JVal)) (key : String)
    (o : Option ScaleMode)
    (h : lookupField fields key =
      Option.map (fun m => JVal.str (scaleModeStr m)) o) :
    optField fields key parseScaleMode = some o := by
  cases o with
  | none => simp [optField, h]
  | some m => simp [optField, h, parseScaleMode_encode m]

theorem parseLayoutMode_encode (lm : LayoutMode) :
    parseLayoutMode (JVal.str (layoutModeStr lm)) = some lm := by
  cases lm <;> simp [parseLayoutMode, layoutModeStr, asString]

theorem defField_of_layout (fields : List (String × JVal)) (lm : LayoutMode)
    (h : lookupField fields "layoutMode" = some (JVal.str (layoutModeStr lm))) :
    defField fields "layoutMode" parseLayoutMode LayoutMode.NONE = some lm := by
  simp [defField, h, parseLayoutMode_encode lm]

/-- The padding schema accepts the encoding of any valid padding back. -/
theorem parsePadding_encode (p : FramePadding) (hp : paddingOkB p = true) :
    parsePadding (encodePadding p) = some p := by
  obtain ⟨t, r, bt, l⟩ := p
  simp only [paddingOkB, Bool.and_eq_true] at hp
  obtain ⟨⟨⟨h1, h2⟩, h3⟩, h4⟩ := hp
  have ht : optField (optEntry "top" (Option.map JVal.num t)
      ++ (optEntry "right" (Option.map JVal.num r)
      ++ (optEntry "bottom" (Option.map JVal.num bt)
      ++ optEntry "left" (Option.map JVal.num l)))) "top" (numMin 0)
      = some t :=
    optField_of_map_num_min 0 _ "top" t
      (by simp [lookup_optEntry_append_self, lookup_optEntry_append_ne,
        lookup_optEntry_self, lookup_optEntry_ne]) h1
  have hr : optField (optEntry "top" (Option.map JVal.num t)
      ++ (optEntry "right" (Option.map JVal.num r)
      ++ (optEntry "bottom" (Option.map JVal.num bt)
      ++ optEntry "left" (Option.map JVal.num l)))) "right" (numMin 0)
      = some r :=
    optField_of_map_num_min 0 _ "right" r
      (by simp [lookup_optEntry_append_self, lookup_optEntry_append_ne,
        lookup_optEntry_self, lookup_optEntry_ne]) h2
  have hbt : optField (optEntry "top" (Option.map JVal.num t)
      ++ (optEntry "right" (Option.map JVal.num r)
      ++ (optEntry "bottom" (Option.map JVal.num bt)
      ++ optEntry "left" (Option.map JVal.num l)))) "bottom" (numMin 0)
      = some bt :=
    optField_of_map_num_min 0 _ "bottom" bt
      (by simp [lookup_optEntry_append_self, lookup_optEntry_append_ne,
        lookup_optEntry_self, lookup_optEntry_ne]) h3
  have hl : optField (optEntry "top" (Option.map JVal.num t)
      ++ (optEntry "right" (Option.map JVal.num r)
      ++ (optEntry "bottom" (Option.map JVal.num bt)
      ++ optEntry "left" (Option.map JVal.num l)))) "left" (numMin 0)
      = some l :=
    optField_of_map_num_min 0 _ "left" l
      (by simp [lookup_optEntry_append_self, lookup_optEntry_append_ne,
        lookup_optEntry_self, lookup_optEntry_ne]) h4
  simp [encodePadding, List.append_assoc, parsePadding, ht, hr, hbt, hl]

theorem optField_of_map_padding (fields : List (String × JVal)) (key : String)
    (o : Option FramePadding)
    (h : lookupField fields key = Option.map encodePadding o)
    (hok : optOk paddingOkB o = true) :
    optField fields key parsePadding = some o := by
  cases o with
  | none => simp [optField, h]
  | some p =>
    simp only [optOk] at hok
    simp [optField, h, parsePadding_encode p hok]

/-- `RectNodeSchema` on any field list carrying encoded components. -/
theorem parseRect_eval (fields : List (String × JVal)) (b : NodeBase)
    (fl st : Option RGBA) (sw cr : Option ℚ)
    (hty : lookupField fields "type" = some (JVal.str "rect"))
    (hbase : parseBase fields = some b)
    (hfl : lookupField fields "fill" = Option.map encodeColor fl)
    (hst : lookupField fields "stroke" = Option.map encodeColor st)
    (hsw : lookupField fields "strokeWidth" = Option.map JVal.num sw)
    (hcr : lookupField fields "cornerRadius" = Option.map JVal.num cr)
    (hflok : optOk colorOkB fl = true) (hstok : optOk colorOkB st = true)
    (hswok : optOk (fun q => decide (0 ≤ q)) sw = true)
    (hcrok : optOk (fun q => decide (0 ≤ q)) cr = true) :
    parseRect fields = some (DesignNode.rect b fl st sw cr) := by
  simp [parseRect, reqField, hty, litStr, asString, hbase,
    optField_of_map_color fields "fill" fl hfl hflok,
    optField_of_map_color fields "stroke" st hst hstok,
    optField_of_map_num_min 0 fields "strokeWidth" sw hsw hswok,
    optField_of_map_num_min 0 fields "cornerRadius" cr hcr hcrok]

/-- `TextNodeSchema` on any field list carrying encoded components. -/
theorem parseText_eval (fields : List (String × JVal)) (b : NodeBase)
    (t : String) (fam sty : Option String) (fsz : Option ℚ)
    (fl : Option RGBA) (al : Option Align)
    (hty : lookupField fields "type" = some (JVal.str "text"))
    (hbase : parseBase fields = some b)
    (htx : lookupField fields "text" = some (JVal.str t))
    (hfam : lookupField fields "fontFamily" = Option.map JVal.str fam)
    (hsty : lookupField fields "fontStyle" = Option.map JVal.str sty)
    (hfsz : lookupField fields "fontSize" = Option.map JVal.num fsz)
    (hfl : lookupField fields "fill" = Option.map encodeColor fl)
    (hal : lookupField fields "alignHorizontal" =
      Option.map (fun a => JVal.str (alignStr a)) al)
    (hfszok : optOk (fun q => decide (0 < q)) fsz = true)
    (hflok : optOk colorOkB fl = true) :
    parseText fields = some (DesignNode.text b t fam sty fsz fl al) := by
  simp [parseText, reqField, hty, litStr, asString, hbase, htx,
    optField_of_map_str fields "fontFamily" fam hfam,
    optField_of_map_str fields "fontStyle" sty hsty,
    optField_of_map_num_pos fields "fontSize" fsz hfsz hfszok,
    optField_of_map_color fields "fill" fl hfl hflok,
    optField_of_map_align fields "alignHorizontal" al hal]

/-- `EllipseNodeSchema` on any field list carrying encoded components. -/
theorem parseEllipse_eval (fields : List (String × JVal)) (b : NodeBase)
    (fl st : Option RGBA) (sw : Option ℚ)
    (hty : lookupField fields "type" = some (JVal.str "ellipse"))
    (hbase : parseBase fields = some b)
    (hfl : lookupField fields "fill" = Option.map encodeColor fl)
    (hst : lookupField fields "stroke" = Option.map encodeColor st)
    (hsw : lookupField fields "strokeWidth" = Option.map JVal.num sw)
    (hflok : optOk colorOkB fl = true) (hstok : optOk colorOkB st = true)
    (hswok : optOk (fun q => decide (0 ≤ q)) sw = true) :
    parseEllipse fields = some (DesignNode.ellipse b fl st sw) := by
  simp [parseEllipse, reqField, hty, litStr, asString, hbase,
    optField_of_map_color fields "fill" fl hfl hflok,
    optField_of_map_color fields "stroke" st hst hstok,
    optField_of_map_num_min 0 fields "strokeWidth" sw hsw hswok]

/-- `ImageNodeSchema` on any field list carrying encoded components. -/
theorem parseImage_eval (fields : List (String × JVal)) (b : NodeBase)
    (iu idu : Option String) (sm : Option ScaleMode) (cr : Option ℚ)
    (st : Option RGBA) (sw : Option ℚ)
    (hty : lookupField fields "type" = some (JVal.str "image"))
    (hbase : parseBase fields = some b)
    (hiu : lookupField fields "imageUrl" = Option.map JVal.str iu)
    (hidu : lookupField fields "imageDataUrl" = Option.map JVal.str idu)
    (hsm : lookupField fields "scaleMode" =
      Option.map (fun m => JVal.str (scaleModeStr m)) sm)
    (hcr : lookupField fields "cornerRadius" = Option.map JVal.num cr)
    (hst : lookupField fields "stroke" = Option.map encodeColor st)
    (hsw : lookupField fields "strokeWidth" = Option.map JVal.num sw)
    (hiuok : optOk (fun s => decide (1 ≤ s.length)) iu = true)
    (hiduok : optOk (fun s => jStartsWith s "data:image/") idu = true)
    (hcrok : optOk (fun q => decide (0 ≤ q)) cr = true)
    (hstok : optOk colorOkB st = true)
    (hswok : optOk (fun q => decide (0 ≤ q)) sw = true)
    (hcond : (strTruthy iu || strTruthy idu) = true) :
    parseImage fields = some (DesignNode.image b iu idu sm cr st sw) := by
  simp [parseImage, reqField, hty, litStr, asString, hbase,
    optField_of_map_str_min1 fields "imageUrl" iu hiu hiuok,
    optField_of_map_dataurl fields "imageDataUrl" idu hidu hiduok,
    optField_of_map_scale fields "scaleMode" sm hsm,
    optField_of_map_num_min 0 fields "cornerRadius" cr hcr hcrok,
    optField_of_map_color fields "stroke" st hst hstok,
    optField_of_map_num_min 0 fields "strokeWidth" sw hsw hswok, hcond]
  intro h1
  rw [h1] at hcond
  simpa using hcond

/-- `FrameNodeSchema` on any field list carrying encoded components. -/
theorem parseFrame_eval (pc : List JVal → Option (List DesignNode))
    (fields : List (String × JVal)) (b : NodeBase) (lm : LayoutMode)
    (pad : Option FramePadding) (isp : Option ℚ) (fl st : Option RGBA)
    (sw cr : Option ℚ) (xs : List JVal) (cs : List DesignNode)
    (hty : lookupField fields "type" = some (JVal.str "frame"))
    (hbase : parseBase fields = some b)
    (hlm : lookupField fields "layoutMode" =
      some (JVal.str (layoutModeStr lm)))
    (hpad : lookupField fields "padding" = Option.map encodePadding pad)
    (hisp : lookupField fields "itemSpacing" = Option.map JVal.num isp)
    (hfl : lookupField fields "fill" = Option.map encodeColor fl)
    (hst : lookupField fields "stroke" = Option.map encodeColor st)
    (hsw : lookupField fields "strokeWidth" = Option.map JVal.num sw)
    (hcr : lookupField fields "cornerRadius" = Option.map JVal.num cr)
    (hch : lookupField fields "children" = some (JVal.arr xs))
    (hcs : pc xs = some cs)
    (hpadok : optOk paddingOkB pad = true)
    (hispok : optOk (fun q => decide (0 ≤ q)) isp = true)
    (hflok : optOk colorOkB fl = true) (hstok : optOk colorOkB st = true)
    (hswok : optOk (fun q => decide (0 ≤ q)) sw = true)
    (hcrok : optOk (fun q => decide (0 ≤ q)) cr = true) :
    parseFrame pc fields =
      some (DesignNode.frame b lm pad isp fl st sw cr cs) := by
  simp [parseFrame, reqField, hty, litStr, asString, hbase,
    defField_of_layout fields lm hlm,
    optField_of_map_padding fields "padding" pad hpad hpadok,
    optField_of_map_num_min 0 fields "itemSpacing" isp hisp hispok,
    optField_of_map_color fields "fill" fl hfl hflok,
    optField_of_map_color fields "stroke" st hst hstok,
    optField_of_map_num_min 0 fields "strokeWidth" sw hsw hswok,
    optField_of_map_num_min 0 fields "cornerRadius" cr hcr hcrok,
    arrField, hch, hcs]

theorem parseRect_none_cons (ty : String) (l : List (String × JVal))
    (h : ¬ ty = "rect") :
    parseRect (("type", JVal.str ty) :: l) = none :=
  parseRect_none_of_type _ ty (lookup_cons_self "type" _ l) h

theorem parseText_none_cons (ty : String) (l : List (String × JVal))
    (h : ¬ ty = "text") :
    parseText (("type", JVal.str ty) :: l) = none :=
  parseText_none_of_type _ ty (lookup_cons_self "type" _ l) h

theorem parseFrame_none_cons (pc : List JVal → Option (List DesignNode))
    (ty : String) (l : List (String × JVal)) (h : ¬ ty = "frame") :
    parseFrame pc (("type", JVal.str ty) :: l) = none :=
  parseFrame_none_of_type _ ty pc (lookup_cons_self "type" _ l) h

theorem parseEllipse_none_cons (ty : String) (l : List (String × JVal))
    (h : ¬ ty = "ellipse") :
    parseEllipse (("type", JVal.str ty) :: l) = none :=
  parseEllipse_none_of_type _ ty (lookup_cons_self "type" _ l) h

theorem depthN_pos (s : DesignNode) : 1 ≤ depthN s := by
  cases s <;> simp [depthN]

mutual

/-- A typed node satisfying the validator invariant parses back from its
encoding to itself, at any fuel at least its tree depth. -/
theorem parseNodeF_encode : ∀ (s : DesignNode) (n : Nat),
    nodeOkB s = true → depthN s ≤ n → parseNodeF n (encodeNode s) = some s
  | DesignNode.rect b fl st sw cr, n, hok, hd => by
    cases n with
    | zero => exact absurd hd (by simp [depthN])
    | succ m =>
      simp only [nodeOkB, Bool.and_eq_true] at hok
      obtain ⟨⟨⟨⟨hb, hfl⟩, hst⟩, hsw⟩, hcr⟩ := hok
      simp only [encodeNode, parseNodeF, List.cons_append, List.append_assoc,
        List.nil_append]
      rw [parseRect_eval _ b fl st sw cr (lookup_cons_self _ _ _)
        (parseBase_encode _ b _ hb
          (by simp [lookup_optEntry_append_ne, lookup_optEntry_ne])
          (by simp [lookup_optEntry_append_ne, lookup_optEntry_ne]))
        (by simp [lookup_cons_ne, lookup_encodeBase_ne,
          lookup_optEntry_append_self, lookup_optEntry_append_ne,
          lookup_optEntry_self, lookup_optEntry_ne])
        (by simp [lookup_cons_ne, lookup_encodeBase_ne,
          lookup_optEntry_append_self, lookup_optEntry_append_ne,
          lookup_optEntry_self, lookup_optEntry_ne])
        (by simp [lookup_cons_ne, lookup_encodeBase_ne,
          lookup_optEntry_append_self, lookup_optEntry_append_ne,
          lookup_optEntry_self, lookup_optEntry_ne])
        (by simp [lookup_cons_ne, lookup_encodeBase_ne,
          lookup_optEntry_append_self, lookup_optEntry_append_ne,
          lookup_optEntry_self, lookup_optEntry_ne])
        hfl hst hsw hcr]
      rfl
  | DesignNode.text b t fam sty fsz fl al, n, hok, hd => by
    cases n with
    | zero => exact absurd hd (by simp [depthN])
    | succ m =>
      simp only [nodeOkB, Bool.and_eq_true] at hok
      obtain ⟨⟨hb, hfsz⟩, hfl⟩ := hok
      simp only [encodeNode, parseNodeF, List.cons_append, List.append_assoc,
        List.nil_append]
      rw [parseRect_none_cons "text" _ (by decide),
        parseText_eval _ b t fam sty fsz fl al (lookup_cons_self _ _ _)
        (parseBase_encode _ b _ hb
          (by simp [lookup_cons_ne, lookup_optEntry_append_ne,
            lookup_optEntry_ne])
          (by simp [lookup_cons_ne, lookup_optEntry_append_ne,
            lookup_optEntry_ne]))
        (by simp [lookup_cons_ne, lookup_encodeBase_ne, lookup_cons_self])
        (by simp [lookup_cons_ne, lookup_encodeBase_ne,
          lookup_optEntry_append_self, lookup_optEntry_append_ne,
          lookup_optEntry_self, lookup_optEntry_ne])
        (by simp [lookup_cons_ne, lookup_encodeBase_ne,
          lookup_optEntry_append_self, lookup_optEntry_append_ne,
          lookup_optEntry_self, lookup_optEntry_ne])
        (by simp [lookup_cons_ne, lookup_encodeBase_ne,
          lookup_optEntry_append_self, lookup_optEntry_append_ne,
          lookup_optEntry_self, lookup_optEntry_ne])
        (by simp [lookup_cons_ne, lookup_encodeBase_ne,
          lookup_optEntry_append_self, lookup_optEntry_append_ne,
          lookup_optEntry_self, lookup_optEntry_ne])
        (by simp [lookup_cons_ne, lookup_encodeBase_ne,
          lookup_optEntry_append_self, lookup_optEntry_append_ne,
          lookup_optEntry_self, lookup_optEntry_ne])
        hfsz hfl]
      rfl
  | DesignNode.frame b lm pad isp fl st sw cr cs, n, hok, hd => by
    cases n with
    | zero => exact absurd hd (by simp [depthN])
    | succ m =>
      simp only [nodeOkB, Bool.and_eq_true] at hok
      obtain ⟨⟨⟨⟨⟨⟨⟨hb, hpad⟩, hisp⟩, hfl⟩, hst⟩, hsw⟩, hcr⟩, hcs⟩ := hok
      have hdl : depthL cs ≤ m := by
        simp only [depthN] at hd
        omega
      simp only [encodeNode, parseNodeF, List.cons_append, List.append_assoc,
        List.nil_append]
      rw [parseRect_none_cons "frame" _ (by decide),
        parseText_none_cons "frame" _ (by decide),
        parseFrame_eval _ _ b lm pad isp fl st sw cr (encodeList cs) cs
        (lookup_cons_self _ _ _)
        (parseBase_encode _ b _ hb
          (by simp [lookup_cons_ne, lookup_optEntry_append_ne,
            lookup_optEntry_ne, lookup_nil])
          (by simp [lookup_cons_ne, lookup_optEntry_append_ne,
            lookup_optEntry_ne, lookup_nil]))
        (by simp [lookup_cons_ne, lookup_encodeBase_ne, lookup_cons_self])
        (by simp [lookup_cons_ne, lookup_encodeBase_ne,
          lookup_optEntry_append_self, lookup_optEntry_append_ne,
          lookup_optEntry_self, lookup_optEntry_ne, lookup_cons_self,
          lookup_nil])
        (by simp [lookup_cons_ne, lookup_encodeBase_ne,
          lookup_optEntry_append_self, lookup_optEntry_append_ne,
          lookup_optEntry_self, lookup_optEntry_ne, lookup_cons_self,
          lookup_nil])
        (by simp [lookup_cons_ne, lookup_encodeBase_ne,
          lookup_optEntry_append_self, lookup_optEntry_append_ne,
          lookup_optEntry_self, lookup_optEntry_ne, lookup_cons_self,
          lookup_nil])
        (by simp [lookup_cons_ne, lookup_encodeBase_ne,
          lookup_optEntry_append_self, lookup_optEntry_append_ne,
          lookup_optEntry_self, lookup_optEntry_ne, lookup_cons_self,
          lookup_nil])
        (by simp [lookup_cons_ne, lookup_encodeBase_ne,
          lookup_optEntry_append_self, lookup_optEntry_append_ne,
          lookup_optEntry_self, lookup_optEntry_ne, lookup_cons_self,
          lookup_nil])
        (by simp [lookup_cons_ne, lookup_encodeBase_ne,
          lookup_optEntry_append_self, lookup_optEntry_append_ne,
          lookup_optEntry_self, lookup_optEntry_ne, lookup_cons_self,
          lookup_nil])
        (by simp [lookup_cons_ne, lookup_encodeBase_ne,
          lookup_optEntry_append_ne, lookup_optEntry_ne, lookup_cons_self])
        (parseListAux_encode cs m hcs hdl)
        hpad hisp hfl hst hsw hcr]
      rfl
  | DesignNode.ellipse b fl st sw, n, hok, hd => by
    cases n with
    | zero => exact absurd hd (by simp [depthN])
    | succ m =>
      simp only [nodeOkB, Bool.and_eq_true] at hok
      obtain ⟨⟨⟨hb, hfl⟩, hst⟩, hsw⟩ := hok
      simp only [encodeNode, parseNodeF, List.cons_append, List.append_assoc,
        List.nil_append]
      rw [parseRect_none_cons "ellipse" _ (by decide),
        parseText_none_cons "ellipse" _ (by decide),
        parseFrame_none_cons _ "ellipse" _ (by decide),
        parseEllipse_eval _ b fl st sw (lookup_cons_self _ _ _)
        (parseBase_encode _ b _ hb
          (by simp [lookup_optEntry_append_ne, lookup_optEntry_ne])
          (by simp [lookup_optEntry_append_ne, lookup_optEntry_ne]))
        (by simp [lookup_cons_ne, lookup_encodeBase_ne,
          lookup_optEntry_append_self, lookup_optEntry_append_ne,
          lookup_optEntry_self, lookup_optEntry_ne])
        (by simp [lookup_cons_ne, lookup_encodeBase_ne,
          lookup_optEntry_append_self, lookup_optEntry_append_ne,
          lookup_optEntry_self, lookup_optEntry_ne])
        (by simp [lookup_cons_ne, lookup_encodeBase_ne,
          lookup_optEntry_append_self, lookup_optEntry_append_ne,
          lookup_optEntry_self, lookup_optEntry_ne])
        hfl hst hsw]
      rfl
  | DesignNode.image b iu idu sm cr st sw, n, hok, hd => by
    cases n with
    | zero => exact absurd hd (by simp [depthN])
    | succ m =>
      simp only [nodeOkB, Bool.and_eq_true] at hok
      obtain ⟨⟨⟨⟨⟨⟨hb, hiu⟩, hidu⟩, hcr⟩, hst⟩, hsw⟩, hcond⟩ := hok
      simp only [encodeNode, parseNodeF, List.cons_append, List.append_assoc,
        List.nil_append]
      rw [parseRect_none_cons "image" _ (by decide),
        parseText_none_cons "image" _ (by decide),
        parseFrame_none_cons _ "image" _ (by decide),
        parseEllipse_none_cons "image" _ (by decide),
        parseImage_eval _ b iu idu sm cr st sw (lookup_cons_self _ _ _)
        (parseBase_encode _ b _ hb
          (by simp [lookup_optEntry_append_ne, lookup_optEntry_ne])
          (by simp [lookup_optEntry_append_ne, lookup_optEntry_ne]))
        (by simp [lookup_cons_ne, lookup_encodeBase_ne,
          lookup_optEntry_append_self, lookup_optEntry_append_ne,
          lookup_optEntry_self, lookup_optEntry_ne])
        (by simp [lookup_cons_ne, lookup_encodeBase_ne,
          lookup_optEntry_append_self, lookup_optEntry_append_ne,
          lookup_optEntry_self, lookup_optEntry_ne])
        (by simp [lookup_cons_ne, lookup_encodeBase_ne,
          lookup_optEntry_append_self, lookup_optEntry_append_ne,
          lookup_optEntry_self, lookup_optEntry_ne])
        (by simp [lookup_cons_ne, lookup_encodeBase_ne,
          lookup_optEntry_append_self, lookup_optEntry_append_ne,
          lookup_optEntry_self, lookup_optEntry_ne])
        (by simp [lookup_cons_ne, lookup_encodeBase_ne,
          lookup_optEntry_append_self, lookup_optEntry_append_ne,
          lookup_optEntry_self, lookup_optEntry_ne])
        (by simp [lookup_cons_ne, lookup_encodeBase_ne,
          lookup_optEntry_append_self, lookup_optEntry_append_ne,
          lookup_optEntry_self, lookup_optEntry_ne])
        hiu hidu hcr hst hsw hcond]
      rfl

/-- A typed node list satisfying the validator invariant parses back from
its encoding to itself. -/
theorem parseListAux_encode : ∀ (cs : List DesignNode) (n : Nat),
    listOkB cs = true → depthL cs ≤ n →
      parseListAux (parseNodeF n) (encodeList cs) = some cs
  | [], _, _, _ => rfl
  | c :: cs, n, hok, hd => by
    simp only [listOkB, Bool.and_eq_true] at hok
    simp only [depthL] at hd
    have hd1 : depthN c ≤ n := le_trans (le_max_left _ _) hd
    have hd2 : depthL cs ≤ n := le_trans (le_max_right _ _) hd
    simp [encodeList, parseListAux, parseNodeF_encode c n hok.1 hd1,
      parseListAux_encode cs n hok.2 hd2]

end

theorem jdepthF_append (l1 l2 : List (String × JVal)) :
    jdepthF (l1 ++ l2) = max (jdepthF l1) (jdepthF l2) := by
  induction l1 with
  | nil => simp [jdepthF]
  | cons hd t ih =>
    obtain ⟨k, v⟩ := hd
    simp [jdepthF, ih, Nat.max_assoc]

mutual

/-- The parser fuel supplied for a node's own encoding dominates its tree
depth. -/
theorem depthN_le_encode : ∀ (s : DesignNode),
    depthN s ≤ jdepth (encodeNode s)
  | DesignNode.rect b fl st sw cr => by
    simp [depthN, encodeNode, jdepth]
  | DesignNode.text b t fam sty fsz fl al => by
    simp [depthN, encodeNode, jdepth]
  | DesignNode.frame b lm pad isp fl st sw cr cs => by
    have h := depthL_le_encode cs
    simp only [depthN, encodeNode, jdepth, jdepthF, jdepthF_append,
      List.cons_append, List.append_assoc, List.nil_append]
    omega
  | DesignNode.ellipse b fl st sw => by
    simp [depthN, encodeNode, jdepth]
  | DesignNode.image b iu idu sm cr st sw => by
    simp [depthN, encodeNode, jdepth]

/-- Depth of an encoded node list dominates the typed list depth. -/
theorem depthL_le_encode : ∀ (cs : List DesignNode),
    depthL cs ≤ jdepthL (encodeList cs)
  | [] => Nat.le_refl 0
  | c :: cs => by
    have h1 := depthN_le_encode c
    have h2 := depthL_le_encode cs
    simp only [depthL, encodeList, jdepthL]
    exact max_le_max h1 h2

end

/-- Claim C6: re-validating the validator's own output succeeds and returns
the same value.  `encodeSpec sp` is the raw shape of the object
`DesignSpecSchema.parse` returned for `sp` — optional keys present exactly
when parsed present, defaulted keys (canvas name, `layoutMode`,
`children`, `nodes`) always present — and parsing it yields `sp` back. -/
theorem C6_validate_idempotent (v : JVal) (sp : DesignSpec)
    (h : parseSpec v = some sp) : parseSpec (encodeSpec sp) = some sp := by
  obtain ⟨⟨hw, hh⟩, hnodes⟩ := parseSpec_ok v sp h
  have hdepth : depthL sp.nodes ≤ jdepth (encodeSpec sp) + 1 := by
    have h1 := depthL_le_encode sp.nodes
    simp only [encodeSpec, jdepth, jdepthF]
    omega
  have hlist := parseListAux_encode sp.nodes (jdepth (encodeSpec sp) + 1)
    hnodes hdepth
  unfold parseSpec
  simp only [encodeSpec] at hlist ⊢
  simp [parseSpecAux, reqField, lookupField, parseCanvas, defField, asString,
    numPos, asNumber, hw, hh, arrField, hlist]

/-- A concrete raw spec for the C6 witness: the canvas name, the frame's
`layoutMode` and `children`, all absent, get their defaults. -/
def c6raw : JVal := JVal.obj [
  ("canvas", JVal.obj [("width", JVal.num 800), ("height", JVal.num 600)]),
  ("nodes", JVal.arr [JVal.obj [("type", JVal.str "frame"),
    ("x", JVal.num 0), ("y", JVal.num 0),
    ("width", JVal.num 100), ("height", JVal.num 50)]])]

/-- The spec `c6raw` validates to, defaults applied. -/
def c6sp : DesignSpec :=
  ⟨⟨"Generated from Image", 800, 600⟩,
   [DesignNode.frame ⟨none, 0, 0, 100, 50, none⟩ LayoutMode.NONE
      none none none none none none []]⟩

theorem C6_witness :
    parseSpec c6raw = some c6sp
    ∧ parseSpec (encodeSpec c6sp) = some c6sp :=
  ⟨by rfl, C6_validate_idempotent c6raw c6sp (by rfl)⟩
